import Mathlib

/-
Verification of the restaurant data-model layer (src/core/models.py).

The source file declares Django models only: entity tables, foreign keys with
their on_delete policies (PROTECT / CASCADE), uniqueness constraints
(unique=True, OneToOneField) and multi-table-inheritance specializations
(Garcom/Caixa/Cozinha/Gerente of Usuario; PagamentoDinheiro/Cartao/Cheque of
Pagamento).  We embed the store as lists of rows, one list per table, and each
write operation as a function `Store → Except Err Store`.  An operation that
returns `.error e` performs no write at all, so "the store is left unchanged on
failure" is inherent to the embedding (made explicit through `exec`).

Deletion semantics are translated from the on_delete declarations in
models.py: Django collects the target row together with every row reachable
through CASCADE edges, fails with a protected-error if any collected row is
still referenced through a PROTECT edge from outside the collection, and
otherwise deletes exactly the collected rows.

Operations that the repository's model layer does not itself contain
(application-layer checks described in the design document: role
specialization, the category-cycle check, the server/restaurant match, the
quantity check, the pay operation) are modelled from the spec and carry a
doc comment saying so.

Decimal columns (FloatField: preco, quantidade, valor) are embedded as `Int`:
the claims under verification depend only on sign comparisons and on the
presence or absence of validation, never on fractional arithmetic.
Timestamps are embedded as `Nat`.
-/

/-- A row of the `Usuario` table (models.py lines 7-13). -/
structure Usuario where
  id : Nat
  nome : String
  login : String
  senha : String
deriving DecidableEq, Repr

/-- A row of the `Restaurante` table (models.py lines 16-21). -/
structure Restaurante where
  id : Nat
  nome : String
deriving DecidableEq, Repr

/-- A row of the `Garcom` specialization table (models.py lines 24-34):
the one-to-one parent link of multi-table inheritance is `usuarioId`, and
`restaurante` is a FK with on_delete=PROTECT. -/
structure Garcom where
  usuarioId : Nat
  restauranteId : Nat
deriving DecidableEq, Repr

/-- A row of the `Mesa` table (models.py lines 55-75): FK `restaurante`
(CASCADE) and FK `garcom` (PROTECT). -/
structure Mesa where
  id : Nat
  numero : Int
  disponivel : Bool
  restauranteId : Nat
  garcomId : Nat
deriving DecidableEq, Repr

/-- A row of the `Cliente` table (models.py lines 78-84). -/
structure Cliente where
  id : Nat
  nome : String
  horaChegada : Nat
  horaSaida : Option Nat
deriving DecidableEq, Repr

/-- A row of the `Cardapio` table (models.py lines 90-101): OneToOneField to
`Gerente` with on_delete=PROTECT, so the gerente reference is unique. -/
structure Cardapio where
  id : Nat
  gerenteId : Nat
deriving DecidableEq, Repr

/-- A row of the `Categoria` table (models.py lines 104-124): nullable
self-referencing FK `categoria_pai` with on_delete=CASCADE. -/
structure Categoria where
  id : Nat
  nome : String
  categoriaPai : Option Nat
deriving DecidableEq, Repr

/-- A row of the `ItemCardapio` table (models.py lines 127-148): FK `cardapio`
(CASCADE) and FK `categoria` (CASCADE). -/
structure ItemCardapio where
  id : Nat
  nome : String
  ingredientes : String
  preco : Int
  disponivelNaCozinha : Bool
  cardapioId : Nat
  categoriaId : Nat
deriving DecidableEq, Repr

/-- A row of the `Conta` table (models.py lines 154-175): FK `mesa` with
on_delete=PROTECT.  The many-to-many `caixas` link lives in `Store.contaCaixas`. -/
structure Conta where
  id : Nat
  nome : String
  mesaId : Nat
deriving DecidableEq, Repr

/-- A row of the `Pedido` table (models.py lines 178-204): FK `conta`
(CASCADE), FK `cliente` (PROTECT), FK `cozinha` (PROTECT). -/
structure Pedido where
  id : Nat
  numero : Int
  horarioPedido : Nat
  horarioEntrega : Option Nat
  contaId : Nat
  clienteId : Nat
  cozinhaId : Nat
deriving DecidableEq, Repr

/-- A row of the `ItemPedido` table (models.py lines 207-225): FK `pedido`
(CASCADE) and FK `item_cardapio` (PROTECT). -/
structure ItemPedido where
  id : Nat
  quantidade : Int
  pedidoId : Nat
  itemCardapioId : Nat
deriving DecidableEq, Repr

/-- A row of the `Pagamento` base table (models.py lines 231-246):
OneToOneField `conta` with on_delete=CASCADE, `valor` and the creation
timestamp `data` (auto_now_add, supplied as the operation time). -/
structure Pagamento where
  id : Nat
  contaId : Nat
  valor : Int
  dataHora : Nat
deriving DecidableEq, Repr

/-- A row of the `PagamentoCartao` specialization table (models.py lines
254-256): parent link plus `nro_transacao`. -/
structure PagamentoCartao where
  pagamentoId : Nat
  nroTransacao : Int
deriving DecidableEq, Repr

/-- A row of the `PagamentoCheque` specialization table (models.py lines
259-261): parent link plus `numero`. -/
structure PagamentoCheque where
  pagamentoId : Nat
  numero : Int
deriving DecidableEq, Repr

/-- The staff role a `Usuario` is specialized into (models.py lines 24-49:
Garcom, Caixa, Cozinha, Gerente). -/
inductive Papel where
  | garcom
  | caixa
  | cozinha
  | gerente
deriving DecidableEq, Repr

/-- The payment method of a `pay` request (models.py lines 249-261:
PagamentoDinheiro, PagamentoCartao, PagamentoCheque). -/
inductive Metodo where
  | dinheiro
  | cartao
  | cheque
deriving DecidableEq, Repr

/-- The method-specific details supplied to `pay`: an optional transaction
number (card) and an optional cheque number (cheque). -/
structure Detalhes where
  nroTransacao : Option Int
  nroCheque : Option Int
deriving DecidableEq, Repr

/-- The error taxonomy of the design document (§7): malformed input,
uniqueness/cardinality conflict, deletion blocked by a protected reference,
dangling reference. -/
inductive Err where
  | validationErr (tag : String)
  | conflict (tag : String)
  | integrity (tag : String)
  | notFound (tag : String)
deriving DecidableEq, Repr

deriving instance DecidableEq for Except

/-- The whole relational store: one list of rows per table of models.py.
`caixas`, `cozinhas`, `gerentes` and `pagamentoDinheiro` are specialization
tables whose rows carry no extra column, so they are lists of parent keys;
`contaCaixas` is the many-to-many through table of `Conta.caixas`. -/
structure Store where
  usuarios : List Usuario
  garcons : List Garcom
  caixas : List Nat
  cozinhas : List Nat
  gerentes : List Nat
  restaurantes : List Restaurante
  mesas : List Mesa
  clientes : List Cliente
  cardapios : List Cardapio
  categorias : List Categoria
  itensCardapio : List ItemCardapio
  contas : List Conta
  contaCaixas : List (Nat × Nat)
  pedidos : List Pedido
  itensPedido : List ItemPedido
  pagamentos : List Pagamento
  pagamentoDinheiro : List Nat
  pagamentoCartao : List PagamentoCartao
  pagamentoCheque : List PagamentoCheque
deriving DecidableEq, Repr

/-- The empty store: no row in any table. -/
def emptyStore : Store :=
  ⟨[], [], [], [], [], [], [], [], [], [], [], [], [], [], [], [], [], [], []⟩

/-- How many role-specialization rows (Garcom, Caixa, Cozinha, Gerente) exist
for the usuario `uid`.  Disjoint specialization means this is at most 1. -/
def roleCount (s : Store) (uid : Nat) : Nat :=
  s.garcons.countP (fun g => g.usuarioId == uid) +
  s.caixas.countP (fun c => c == uid) +
  s.cozinhas.countP (fun c => c == uid) +
  s.gerentes.countP (fun c => c == uid)

/-- `uid` has at least one role-specialization row. -/
def HasRole (s : Store) (uid : Nat) : Prop :=
  1 ≤ roleCount s uid

/-- A `Usuario` row with id `uid` exists. -/
def UsuarioExists (s : Store) (uid : Nat) : Prop :=
  ∃ u ∈ s.usuarios, u.id = uid

/-- A `Conta` row with id `cid` exists. -/
def ContaExists (s : Store) (cid : Nat) : Prop :=
  ∃ c ∈ s.contas, c.id = cid

/-- The conta `cid` already has a `Pagamento` row. -/
def HasPagamento (s : Store) (cid : Nat) : Prop :=
  ∃ pg ∈ s.pagamentos, pg.contaId = cid

/-- How many payment-specialization rows (dinheiro, cartao, cheque) exist for
the pagamento `pid`. -/
def specCount (s : Store) (pid : Nat) : Nat :=
  s.pagamentoDinheiro.countP (fun x => x == pid) +
  s.pagamentoCartao.countP (fun r => r.pagamentoId == pid) +
  s.pagamentoCheque.countP (fun r => r.pagamentoId == pid)

/-- Method/details consistency of a pay request (§4.5): card requires a
transaction number, cheque requires a cheque number, cash requires neither. -/
def Consistente : Metodo → Detalhes → Prop
  | .dinheiro, d => d.nroTransacao = none ∧ d.nroCheque = none
  | .cartao, d => d.nroTransacao.isSome = true ∧ d.nroCheque = none
  | .cheque, d => d.nroTransacao = none ∧ d.nroCheque.isSome = true

/-- The ids of all `Categoria` rows. -/
def catIds (cats : List Categoria) : List Nat :=
  cats.map (fun c => c.id)

/-- The parent of categoria `a`, looked up by id (none when `a` has no row or
is a root). -/
def parentOf (cats : List Categoria) (a : Nat) : Option Nat :=
  match cats.find? (fun c => c.id == a) with
  | some c => c.categoriaPai
  | none => none

/-- The fuel-bounded ancestor walk of the design document (§4.3, §9: "ancestor
walk bounded by total category count"): the list of ids visited starting at
`a` and repeatedly moving to the parent. -/
def chainUp (cats : List Categoria) : Nat → Nat → List Nat
  | 0, a => [a]
  | fuel + 1, a =>
      a :: (match parentOf cats a with
            | some p => chainUp cats fuel p
            | none => [])

/-- The `k`-fold iterated parent of `a` (none once the walk leaves the table
or passes a root). -/
def orbitN (cats : List Categoria) : Nat → Nat → Option Nat
  | 0, a => some a
  | k + 1, a =>
      match parentOf cats a with
      | some p => orbitN cats k p
      | none => none

/-- One step of the categoria parent graph: `a`'s row exists and names `b` as
its parent. -/
def PStep (cats : List Categoria) (a b : Nat) : Prop :=
  ∃ c ∈ cats, c.id = a ∧ c.categoriaPai = some b

/-- No categoria is its own (strict) ancestor. -/
def CatAcyclic (cats : List Categoria) : Prop :=
  ∀ a, ¬ Relation.TransGen (PStep cats) a a

/-- Every non-null parent reference names an existing categoria row. -/
def CatFKOk (cats : List Categoria) : Prop :=
  ∀ c ∈ cats, ∀ p, c.categoriaPai = some p → p ∈ catIds cats

/-- The ids of the categoria rows whose parent is already in `acc` but whose
own id is not yet: one growth step of the CASCADE collection. -/
def descNew (cats : List Categoria) (acc : List Nat) : List Nat :=
  (cats.filter
    (fun c => !(acc.contains c.id) &&
      (match c.categoriaPai with
       | some p => acc.contains p
       | none => false))).map (fun c => c.id)

/-- Saturation of the descendant set of a categoria: repeatedly add every
categoria whose parent is already in the set (the CASCADE collection of the
self-referencing FK, models.py lines 115-121). -/
def descSetAux (cats : List Categoria) : Nat → List Nat → List Nat
  | 0, acc => acc
  | fuel + 1, acc =>
      if descNew cats acc = [] then acc
      else descSetAux cats fuel (acc ++ descNew cats acc)

/-- The categoria `root` together with all its descendants: the rows Django
collects when deleting `root` (self-FK on_delete=CASCADE). -/
def descSet (cats : List Categoria) (root : Nat) : List Nat :=
  descSetAux cats cats.length [root]

/-- Modelled from the spec: §4.1 — the model layer has no create-person
operation, only the `Usuario` table; creation guarantees a unique login
(`unique=True` in models.py line 9) and a fresh surrogate key. -/
def criarUsuario (id : Nat) (nome login senha : String) (s : Store) :
    Except Err Store :=
  if _h : ∃ u ∈ s.usuarios, u.id = id then .error (.conflict "id-exists")
  else if _h : ∃ u ∈ s.usuarios, u.login = login then
    .error (.conflict "login-exists")
  else .ok { s with usuarios := ⟨id, nome, login, senha⟩ :: s.usuarios }

/-- Modelled from the spec: §4.1 — disjoint role specialization is enforced at
the application layer, which is absent from the repository (models.py only
declares the four subtype tables).  The operation rejects a specialization
when the usuario already has a role record; a garcom additionally needs an
existing restaurante (FK, models.py lines 30-34). -/
def especializar (k : Papel) (uid rid : Nat) (s : Store) : Except Err Store :=
  if _h : ∃ u ∈ s.usuarios, u.id = uid then
    if _h : roleCount s uid = 0 then
      match k with
      | .garcom =>
          if _h : ∃ r ∈ s.restaurantes, r.id = rid then
            .ok { s with garcons := ⟨uid, rid⟩ :: s.garcons }
          else .error (.notFound "restaurante")
      | .caixa => .ok { s with caixas := uid :: s.caixas }
      | .cozinha => .ok { s with cozinhas := uid :: s.cozinhas }
      | .gerente => .ok { s with gerentes := uid :: s.gerentes }
    else .error (.conflict "role-exists")
  else .error (.notFound "usuario")

/-- Creation of a `Restaurante` row (models.py lines 16-21). -/
def criarRestaurante (id : Nat) (nome : String) (s : Store) :
    Except Err Store :=
  if _h : ∃ r ∈ s.restaurantes, r.id = id then .error (.conflict "id-exists")
  else .ok { s with restaurantes := ⟨id, nome⟩ :: s.restaurantes }

/-- Modelled from the spec: §4.2 — the cross-entity check that the assigned
garcom already belongs to the mesa's restaurante is an application-layer rule
absent from models.py (which only declares the two FKs, lines 63-72).
`disponivel` defaults to true (models.py line 61). -/
def criarMesa (id : Nat) (numero : Int) (rid gid : Nat) (s : Store) :
    Except Err Store :=
  if _h : ∃ r ∈ s.restaurantes, r.id = rid then
    if _h : ∃ g ∈ s.garcons, g.usuarioId = gid then
      if _h : ∃ g ∈ s.garcons, g.usuarioId = gid ∧ g.restauranteId = rid then
        if _h : ∃ m ∈ s.mesas, m.id = id then .error (.conflict "id-exists")
        else .ok { s with mesas := ⟨id, numero, true, rid, gid⟩ :: s.mesas }
      else .error (.validationErr "server-restaurant-mismatch")
    else .error (.notFound "garcom")
  else .error (.notFound "restaurante")

/-- Creation of a `Cliente` row on arrival (models.py lines 78-84); the
departure time starts null. -/
def criarCliente (id : Nat) (nome : String) (chegada : Nat) (s : Store) :
    Except Err Store :=
  if _h : ∃ c ∈ s.clientes, c.id = id then .error (.conflict "id-exists")
  else .ok { s with clientes := ⟨id, nome, chegada, none⟩ :: s.clientes }

/-- Creation of a `Cardapio` row (models.py lines 90-101): the OneToOneField
to `Gerente` makes a second cardapio for the same gerente a uniqueness
conflict (§4.3: menu-exists). -/
def criarCardapio (id gid : Nat) (s : Store) : Except Err Store :=
  if _h : ∃ g ∈ s.gerentes, g = gid then
    if _h : ∃ c ∈ s.cardapios, c.gerenteId = gid then
      .error (.conflict "menu-exists")
    else if _h : ∃ c ∈ s.cardapios, c.id = id then
      .error (.conflict "id-exists")
    else .ok { s with cardapios := ⟨id, gid⟩ :: s.cardapios }
  else .error (.notFound "gerente")

/-- Modelled from the spec: §4.3 — the category-cycle check (walk the
ancestors of the proposed parent; fail if the new node appears) is an
application-layer rule absent from models.py, which only declares the
nullable self-FK (lines 115-121).  Insert of a new categoria row. -/
def criarCategoria (id : Nat) (nome : String) (pai : Option Nat) (s : Store) :
    Except Err Store :=
  if _h : ∃ c ∈ s.categorias, c.id = id then .error (.conflict "id-exists")
  else
    match pai with
    | none => .ok { s with categorias := ⟨id, nome, none⟩ :: s.categorias }
    | some p =>
        if _h : p ∈ catIds s.categorias then
          if _h : id ∈ chainUp s.categorias s.categorias.length p then
            .error (.validationErr "category-cycle")
          else .ok { s with categorias := ⟨id, nome, some p⟩ :: s.categorias }
        else .error (.notFound "categoria-pai")

/-- The categoria table after assigning `pai` as the parent of the categoria
with id `id`. -/
def reparent (cats : List Categoria) (id : Nat) (pai : Option Nat) :
    List Categoria :=
  cats.map (fun c => if c.id = id then { c with categoriaPai := pai } else c)

/-- Modelled from the spec: §4.3 — reparenting an existing categoria, guarded
by the same ancestor-walk cycle check; absent from models.py. -/
def definirCategoriaPai (id : Nat) (pai : Option Nat) (s : Store) :
    Except Err Store :=
  if _h : ∃ c ∈ s.categorias, c.id = id then
    match pai with
    | none => .ok { s with categorias := reparent s.categorias id none }
    | some p =>
        if _h : p ∈ catIds s.categorias then
          if _h : id ∈ chainUp s.categorias s.categorias.length p then
            .error (.validationErr "category-cycle")
          else .ok { s with categorias := reparent s.categorias id (some p) }
        else .error (.notFound "categoria-pai")
  else .error (.notFound "categoria")

/-- Creation of an `ItemCardapio` row (models.py lines 127-148): requires an
existing cardapio and categoria; kitchen availability defaults to true. -/
def criarItemCardapio (id : Nat) (nome ingredientes : String) (preco : Int)
    (cardId catId : Nat) (s : Store) : Except Err Store :=
  if _h : ∃ c ∈ s.cardapios, c.id = cardId then
    if _h : ∃ c ∈ s.categorias, c.id = catId then
      if _h : ∃ i ∈ s.itensCardapio, i.id = id then
        .error (.conflict "id-exists")
      else .ok { s with itensCardapio :=
        ⟨id, nome, ingredientes, preco, true, cardId, catId⟩ :: s.itensCardapio }
    else .error (.notFound "categoria")
  else .error (.notFound "cardapio")

/-- Creation of a `Conta` row (models.py lines 154-175): requires an existing
mesa, any availability state (§4.4). -/
def criarConta (id : Nat) (nome : String) (mid : Nat) (s : Store) :
    Except Err Store :=
  if _h : ∃ m ∈ s.mesas, m.id = mid then
    if _h : ∃ c ∈ s.contas, c.id = id then .error (.conflict "id-exists")
    else .ok { s with contas := ⟨id, nome, mid⟩ :: s.contas }
  else .error (.notFound "mesa")

/-- Adding a row to the `Conta.caixas` many-to-many through table
(models.py lines 168-172). -/
def associarCaixa (cid xid : Nat) (s : Store) : Except Err Store :=
  if _h : ∃ c ∈ s.contas, c.id = cid then
    if _h : ∃ x ∈ s.caixas, x = xid then
      .ok { s with contaCaixas := (cid, xid) :: s.contaCaixas }
    else .error (.notFound "caixa")
  else .error (.notFound "conta")

/-- Creation of a `Pedido` row (models.py lines 178-204): requires an existing
conta, cliente and cozinha; the delivery time starts null. -/
def criarPedido (id : Nat) (numero : Int) (horario : Nat)
    (cid clid kid : Nat) (s : Store) : Except Err Store :=
  if _h : ∃ c ∈ s.contas, c.id = cid then
    if _h : ∃ c ∈ s.clientes, c.id = clid then
      if _h : ∃ k ∈ s.cozinhas, k = kid then
        if _h : ∃ p ∈ s.pedidos, p.id = id then .error (.conflict "id-exists")
        else .ok { s with pedidos :=
          ⟨id, numero, horario, none, cid, clid, kid⟩ :: s.pedidos }
      else .error (.notFound "cozinha")
    else .error (.notFound "cliente")
  else .error (.notFound "conta")

/-- Modelled from the spec: §4.4 — the quantity > 0 validation of an order
line is an application-layer rule absent from models.py, which declares
`quantidade` as an unchecked FloatField (line 211).  The FK existence checks
come from the declared foreign keys (lines 213-222). -/
def criarItemPedido (id : Nat) (quantidade : Int) (pedId itemId : Nat)
    (s : Store) : Except Err Store :=
  if _h : quantidade ≤ 0 then .error (.validationErr "non-positive-quantity")
  else if _h : ∃ p ∈ s.pedidos, p.id = pedId then
    if _h : ∃ i ∈ s.itensCardapio, i.id = itemId then
      if _h : ∃ ip ∈ s.itensPedido, ip.id = id then
        .error (.conflict "id-exists")
      else .ok { s with itensPedido :=
        ⟨id, quantidade, pedId, itemId⟩ :: s.itensPedido }
    else .error (.notFound "item-cardapio")
  else .error (.notFound "pedido")

/-- Modelled from the spec: §4.5 — the `pay` operation is an application-layer
contract absent from models.py; the one-payment-per-conta cardinality it
enforces is also declared in the source as the OneToOneField
`Pagamento.conta` (lines 237-241).  It checks the conta exists, fails with a
conflict when the conta is already paid, then requires the details to match
the method and creates the base `Pagamento` row plus exactly one
specialization row.  No validation is performed on `valor`. -/
def pagar (pid cid : Nat) (valor : Int) (dataHora : Nat) (m : Metodo)
    (d : Detalhes) (s : Store) : Except Err Store :=
  if _h : ∃ c ∈ s.contas, c.id = cid then
    if _h : ∃ pg ∈ s.pagamentos, pg.contaId = cid then
      .error (.conflict "already-paid")
    else
      match m, d with
      | .dinheiro, ⟨none, none⟩ =>
          if _h : ∃ pg ∈ s.pagamentos, pg.id = pid then
            .error (.conflict "id-exists")
          else .ok { s with
            pagamentos := ⟨pid, cid, valor, dataHora⟩ :: s.pagamentos,
            pagamentoDinheiro := pid :: s.pagamentoDinheiro }
      | .cartao, ⟨some n, none⟩ =>
          if _h : ∃ pg ∈ s.pagamentos, pg.id = pid then
            .error (.conflict "id-exists")
          else .ok { s with
            pagamentos := ⟨pid, cid, valor, dataHora⟩ :: s.pagamentos,
            pagamentoCartao := ⟨pid, n⟩ :: s.pagamentoCartao }
      | .cheque, ⟨none, some n⟩ =>
          if _h : ∃ pg ∈ s.pagamentos, pg.id = pid then
            .error (.conflict "id-exists")
          else .ok { s with
            pagamentos := ⟨pid, cid, valor, dataHora⟩ :: s.pagamentos,
            pagamentoCheque := ⟨pid, n⟩ :: s.pagamentoCheque }
      | _, _ => .error (.validationErr "method-detail-mismatch")
  else .error (.notFound "conta")

/-- Deleting a `Garcom` (models.py lines 24-34, 68-72): `Mesa.garcom` is
on_delete=PROTECT, so the delete is blocked while any mesa references the
garcom; otherwise the specialization row and its `Usuario` parent row are
removed (multi-table inheritance deletes both). -/
def excluirGarcom (uid : Nat) (s : Store) : Except Err Store :=
  if _h : ∃ g ∈ s.garcons, g.usuarioId = uid then
    if _h : ∃ m ∈ s.mesas, m.garcomId = uid then
      .error (.integrity "staff-in-use")
    else .ok { s with
      garcons := s.garcons.filter (fun g => ¬ g.usuarioId = uid),
      usuarios := s.usuarios.filter (fun u => ¬ u.id = uid) }
  else .error (.notFound "garcom")

/-- Deleting an `ItemCardapio` (models.py lines 218-222):
`ItemPedido.item_cardapio` is on_delete=PROTECT, so the delete is blocked
while any order line references the item. -/
def excluirItemCardapio (iid : Nat) (s : Store) : Except Err Store :=
  if _h : ∃ i ∈ s.itensCardapio, i.id = iid then
    if _h : ∃ ip ∈ s.itensPedido, ip.itemCardapioId = iid then
      .error (.integrity "item-in-use")
    else .ok { s with
      itensCardapio := s.itensCardapio.filter (fun i => ¬ i.id = iid) }
  else .error (.notFound "item-cardapio")

/-- Deleting a `Restaurante` (models.py lines 30-34, 63-67, 162-166):
`Garcom.restaurante` is PROTECT; `Mesa.restaurante` is CASCADE, so the
restaurante's mesas are collected, and `Conta.mesa` is PROTECT, so a conta on
a collected mesa blocks the whole delete.  On success the restaurante and
exactly its mesas are removed. -/
def excluirRestaurante (rid : Nat) (s : Store) : Except Err Store :=
  if _h : ∃ r ∈ s.restaurantes, r.id = rid then
    if _h : ∃ g ∈ s.garcons, g.restauranteId = rid then
      .error (.integrity "restaurant-in-use")
    else if _h : ∃ c ∈ s.contas, ∃ m ∈ s.mesas,
        m.restauranteId = rid ∧ c.mesaId = m.id then
      .error (.integrity "table-in-use")
    else .ok { s with
      restaurantes := s.restaurantes.filter (fun r => ¬ r.id = rid),
      mesas := s.mesas.filter (fun m => ¬ m.restauranteId = rid) }
  else .error (.notFound "restaurante")

/-- Deleting a `Mesa` (models.py lines 162-166): `Conta.mesa` is
on_delete=PROTECT, so the delete is blocked while any conta references the
mesa; there is no cascade from mesa to conta. -/
def excluirMesa (mid : Nat) (s : Store) : Except Err Store :=
  if _h : ∃ m ∈ s.mesas, m.id = mid then
    if _h : ∃ c ∈ s.contas, c.mesaId = mid then
      .error (.integrity "table-in-use")
    else .ok { s with mesas := s.mesas.filter (fun m => ¬ m.id = mid) }
  else .error (.notFound "mesa")

/-- Deleting a `Cardapio` (models.py lines 136-140, 218-222):
`ItemCardapio.cardapio` is CASCADE, so its itens are collected;
`ItemPedido.item_cardapio` is PROTECT, so an order line on a collected item
blocks the whole delete. -/
def excluirCardapio (cid : Nat) (s : Store) : Except Err Store :=
  if _h : ∃ c ∈ s.cardapios, c.id = cid then
    if _h : ∃ ip ∈ s.itensPedido, ∃ i ∈ s.itensCardapio,
        i.cardapioId = cid ∧ ip.itemCardapioId = i.id then
      .error (.integrity "item-in-use")
    else .ok { s with
      cardapios := s.cardapios.filter (fun c => ¬ c.id = cid),
      itensCardapio := s.itensCardapio.filter (fun i => ¬ i.cardapioId = cid) }
  else .error (.notFound "cardapio")

/-- Deleting a `Categoria` (models.py lines 115-121, 141-145): the self-FK is
CASCADE, collecting the categoria and all its descendants;
`ItemCardapio.categoria` is CASCADE, collecting their itens;
`ItemPedido.item_cardapio` is PROTECT, so an order line on a collected item
blocks the whole delete. -/
def excluirCategoria (catId : Nat) (s : Store) : Except Err Store :=
  if _h : ∃ c ∈ s.categorias, c.id = catId then
    if _h : ∃ ip ∈ s.itensPedido, ∃ i ∈ s.itensCardapio,
        i.categoriaId ∈ descSet s.categorias catId ∧ ip.itemCardapioId = i.id then
      .error (.integrity "item-in-use")
    else .ok { s with
      categorias := s.categorias.filter
        (fun c => ¬ c.id ∈ descSet s.categorias catId),
      itensCardapio := s.itensCardapio.filter
        (fun i => ¬ i.categoriaId ∈ descSet s.categorias catId) }
  else .error (.notFound "categoria")

/-- Deleting a `Conta` (models.py lines 187-191, 213-217, 237-241):
`Pedido.conta` is CASCADE, `ItemPedido.pedido` is CASCADE (through the
collected pedidos), `Pagamento.conta` is CASCADE together with the payment
specialization rows (multi-table inheritance), and the many-to-many link rows
are removed.  Nothing protects a conta, so the delete always succeeds. -/
def excluirConta (cid : Nat) (s : Store) : Except Err Store :=
  if _h : ∃ c ∈ s.contas, c.id = cid then
    .ok { s with
      contas := s.contas.filter (fun c => ¬ c.id = cid),
      pedidos := s.pedidos.filter (fun p => ¬ p.contaId = cid),
      itensPedido := s.itensPedido.filter
        (fun ip => ¬ ∃ p ∈ s.pedidos, p.id = ip.pedidoId ∧ p.contaId = cid),
      pagamentos := s.pagamentos.filter (fun pg => ¬ pg.contaId = cid),
      pagamentoDinheiro := s.pagamentoDinheiro.filter
        (fun x => ¬ ∃ pg ∈ s.pagamentos, pg.id = x ∧ pg.contaId = cid),
      pagamentoCartao := s.pagamentoCartao.filter
        (fun r => ¬ ∃ pg ∈ s.pagamentos, pg.id = r.pagamentoId ∧ pg.contaId = cid),
      pagamentoCheque := s.pagamentoCheque.filter
        (fun r => ¬ ∃ pg ∈ s.pagamentos, pg.id = r.pagamentoId ∧ pg.contaId = cid),
      contaCaixas := s.contaCaixas.filter (fun x => ¬ x.1 = cid) }
  else .error (.notFound "conta")

/-- Deleting a `Pedido` (models.py lines 213-217): `ItemPedido.pedido` is
CASCADE; nothing protects a pedido. -/
def excluirPedido (pid : Nat) (s : Store) : Except Err Store :=
  if _h : ∃ p ∈ s.pedidos, p.id = pid then
    .ok { s with
      pedidos := s.pedidos.filter (fun p => ¬ p.id = pid),
      itensPedido := s.itensPedido.filter (fun ip => ¬ ip.pedidoId = pid) }
  else .error (.notFound "pedido")

/-- Every write operation of the model layer. -/
inductive Op where
  | criarUsuario (id : Nat) (nome login senha : String)
  | especializar (k : Papel) (uid rid : Nat)
  | criarRestaurante (id : Nat) (nome : String)
  | criarMesa (id : Nat) (numero : Int) (rid gid : Nat)
  | criarCliente (id : Nat) (nome : String) (chegada : Nat)
  | criarCardapio (id gid : Nat)
  | criarCategoria (id : Nat) (nome : String) (pai : Option Nat)
  | definirCategoriaPai (id : Nat) (pai : Option Nat)
  | criarItemCardapio (id : Nat) (nome ingredientes : String) (preco : Int)
      (cardId catId : Nat)
  | criarConta (id : Nat) (nome : String) (mid : Nat)
  | associarCaixa (cid xid : Nat)
  | criarPedido (id : Nat) (numero : Int) (horario : Nat) (cid clid kid : Nat)
  | criarItemPedido (id : Nat) (quantidade : Int) (pedId itemId : Nat)
  | pagar (pid cid : Nat) (valor : Int) (dataHora : Nat) (m : Metodo)
      (d : Detalhes)
  | excluirGarcom (uid : Nat)
  | excluirItemCardapio (iid : Nat)
  | excluirRestaurante (rid : Nat)
  | excluirMesa (mid : Nat)
  | excluirCardapio (cid : Nat)
  | excluirCategoria (catId : Nat)
  | excluirConta (cid : Nat)
  | excluirPedido (pid : Nat)
deriving DecidableEq, Repr

/-- Dispatch an operation to its implementation. -/
def applyOp : Op → Store → Except Err Store
  | .criarUsuario id nome login senha, s => criarUsuario id nome login senha s
  | .especializar k uid rid, s => especializar k uid rid s
  | .criarRestaurante id nome, s => criarRestaurante id nome s
  | .criarMesa id numero rid gid, s => criarMesa id numero rid gid s
  | .criarCliente id nome chegada, s => criarCliente id nome chegada s
  | .criarCardapio id gid, s => criarCardapio id gid s
  | .criarCategoria id nome pai, s => criarCategoria id nome pai s
  | .definirCategoriaPai id pai, s => definirCategoriaPai id pai s
  | .criarItemCardapio id nome ing preco cardId catId, s =>
      criarItemCardapio id nome ing preco cardId catId s
  | .criarConta id nome mid, s => criarConta id nome mid s
  | .associarCaixa cid xid, s => associarCaixa cid xid s
  | .criarPedido id numero horario cid clid kid, s =>
      criarPedido id numero horario cid clid kid s
  | .criarItemPedido id quantidade pedId itemId, s =>
      criarItemPedido id quantidade pedId itemId s
  | .pagar pid cid valor dataHora m d, s => pagar pid cid valor dataHora m d s
  | .excluirGarcom uid, s => excluirGarcom uid s
  | .excluirItemCardapio iid, s => excluirItemCardapio iid s
  | .excluirRestaurante rid, s => excluirRestaurante rid s
  | .excluirMesa mid, s => excluirMesa mid s
  | .excluirCardapio cid, s => excluirCardapio cid s
  | .excluirCategoria catId, s => excluirCategoria catId s
  | .excluirConta cid, s => excluirConta cid s
  | .excluirPedido pid, s => excluirPedido pid s

/-- Run an operation, keeping the old store when the operation fails: a failed
operation commits no write. -/
def exec (o : Op) (s : Store) : Store :=
  match applyOp o s with
  | .ok s2 => s2
  | .error _ => s

/-- Run a list of operations from a store. -/
def execs (os : List Op) (s : Store) : Store :=
  os.foldl (fun t o => exec o t) s

/-- One successful operation of the model layer. -/
def StoreStep (s s2 : Store) : Prop :=
  ∃ o : Op, applyOp o s = .ok s2

/-- A store reachable from the empty store through model-layer operations. -/
def Reachable (s : Store) : Prop :=
  Relation.ReflTransGen StoreStep emptyStore s

/-- The inductive invariant of the model layer: disjoint staff specialization,
specialization rows backed by base rows, at most one pagamento per conta,
unique pagamento keys with exactly one payment-specialization row each, and a
duplicate-free, referentially intact, acyclic categoria tree. -/
structure StoreInv (s : Store) : Prop where
  roleLe : ∀ uid, roleCount s uid ≤ 1
  garcomUsuario : ∀ g ∈ s.garcons, ∃ u ∈ s.usuarios, u.id = g.usuarioId
  caixaUsuario : ∀ x ∈ s.caixas, ∃ u ∈ s.usuarios, u.id = x
  cozinhaUsuario : ∀ x ∈ s.cozinhas, ∃ u ∈ s.usuarios, u.id = x
  gerenteUsuario : ∀ x ∈ s.gerentes, ∃ u ∈ s.usuarios, u.id = x
  pagPerConta : ∀ cid : Nat, s.pagamentos.countP (fun pg => pg.contaId == cid) ≤ 1
  pagNodup : (s.pagamentos.map (fun pg => pg.id)).Nodup
  pagSpecOne : ∀ pg ∈ s.pagamentos, specCount s pg.id = 1
  dinheiroBase : ∀ x ∈ s.pagamentoDinheiro, ∃ pg ∈ s.pagamentos, pg.id = x
  cartaoBase : ∀ r ∈ s.pagamentoCartao, ∃ pg ∈ s.pagamentos, pg.id = r.pagamentoId
  chequeBase : ∀ r ∈ s.pagamentoCheque, ∃ pg ∈ s.pagamentos, pg.id = r.pagamentoId
  catNodup : (catIds s.categorias).Nodup
  catFK : CatFKOk s.categorias
  catAcyc : CatAcyclic s.categorias

/-- A sample history of model-layer operations used to evaluate the theorems
at a concrete reachable store: a restaurant with one specialized staff member
of each role, a table, a second table without bills, a client, a menu with a
small category tree, two bills on the first table, one order with one line,
and a cash payment (with a negative amount, which nothing validates). -/
def sampleOps : List Op :=
  [Op.criarUsuario 1 "g" "login-g" "x",
   Op.criarUsuario 2 "k" "login-k" "x",
   Op.criarUsuario 3 "m" "login-m" "x",
   Op.criarUsuario 4 "c" "login-c" "x",
   Op.criarUsuario 5 "m2" "login-m2" "x",
   Op.criarRestaurante 10 "r",
   Op.criarRestaurante 11 "r2",
   Op.criarRestaurante 12 "r3",
   Op.especializar Papel.garcom 1 10,
   Op.especializar Papel.cozinha 2 0,
   Op.especializar Papel.gerente 3 0,
   Op.especializar Papel.caixa 4 0,
   Op.especializar Papel.gerente 5 0,
   Op.criarMesa 20 1 10 1,
   Op.criarMesa 21 2 10 1,
   Op.criarCliente 30 "cli" 5,
   Op.criarCardapio 40 3,
   Op.criarCardapio 41 5,
   Op.criarCategoria 50 "cat" none,
   Op.criarCategoria 51 "sub" (some 50),
   Op.criarCategoria 52 "subsub" (some 51),
   Op.criarItemCardapio 60 "item" "ing" 7 40 50,
   Op.criarItemCardapio 61 "item2" "ing" 8 41 50,
   Op.criarItemCardapio 62 "item3" "ing" 9 41 52,
   Op.criarConta 70 "conta" 20,
   Op.criarConta 71 "conta2" 20,
   Op.criarPedido 80 1 9 70 30 2,
   Op.criarItemPedido 90 2 80 60,
   Op.pagar 100 70 (-5) 11 Metodo.dinheiro ⟨none, none⟩]

/-- The concrete store reached by running `sampleOps` on the empty store. -/
def sampleStore : Store :=
  execs sampleOps emptyStore

/-! ### General list lemmas -/

theorem countP_filter_eq {α : Type} (l : List α) (p q : α → Bool)
    (h : ∀ a ∈ l, p a = true → q a = true) :
    (l.filter q).countP p = l.countP p := by
  induction l with
  | nil => rfl
  | cons a l ih =>
      have ih2 := ih (fun b hb hpb => h b (List.mem_cons_of_mem a hb) hpb)
      by_cases hq : q a = true
      · simp [List.filter_cons, hq, List.countP_cons, ih2]
      · have hp : ¬ p a = true := fun hpa => hq (h a (List.mem_cons_self a l) hpa)
        simp [List.filter_cons, hq, List.countP_cons, ih2, hp]

theorem countP_lt_countP {α : Type} (l : List α) (p q : α → Bool)
    (himp : ∀ a ∈ l, q a = true → p a = true)
    (x : α) (hx : x ∈ l) (hpx : p x = true) (hqx : ¬ q x = true) :
    l.countP q < l.countP p := by
  induction l with
  | nil => cases hx
  | cons a l ih =>
      have himp2 : ∀ b ∈ l, q b = true → p b = true :=
        fun b hb => himp b (List.mem_cons_of_mem a hb)
      rcases List.mem_cons.mp hx with rfl | hxl
      · have hmono : l.countP q ≤ l.countP p := List.countP_mono_left himp2
        simp [List.countP_cons, hpx, hqx]
        omega
      · have hlt := ih himp2 hxl
        by_cases hqa : q a = true
        · have hpa := himp a (List.mem_cons_self a l) hqa
          simp [List.countP_cons, hqa, hpa]
          omega
        · simp only [List.countP_cons, hqa]
          by_cases hpa : p a = true <;> simp [hpa] <;> omega

/-! ### Categoria parent-graph: the ancestor walk computes the ancestor
relation -/

theorem pstep_of_parentOf (cats : List Categoria) (a b : Nat)
    (h : parentOf cats a = some b) : PStep cats a b := by
  unfold parentOf at h
  cases hf : cats.find? (fun c => c.id == a) with
  | none => rw [hf] at h; cases h
  | some c =>
      rw [hf] at h
      refine ⟨c, List.mem_of_find?_eq_some hf, ?_, h⟩
      have := List.find?_some hf
      simpa using this

theorem parentOf_of_pstep (cats : List Categoria)
    (nd : (catIds cats).Nodup) (a b : Nat)
    (h : PStep cats a b) : parentOf cats a = some b := by
  obtain ⟨c, hc, hid, hpai⟩ := h
  have nd2 : (cats.map (fun c => c.id)).Nodup := nd
  have hfind : cats.find? (fun c => c.id == a) = some c := by
    cases hf : cats.find? (fun c => c.id == a) with
    | none =>
        have := List.find?_eq_none.mp hf c hc
        simp [hid] at this
    | some c2 =>
        have h2 : c2 ∈ cats := List.mem_of_find?_eq_some hf
        have h3 : c2.id = a := by simpa using List.find?_some hf
        have : c2 = c := List.inj_on_of_nodup_map nd2 h2 hc (by rw [h3, hid])
        rw [this]
  unfold parentOf
  rw [hfind]
  exact hpai

theorem pstep_det (cats : List Categoria) (nd : (catIds cats).Nodup)
    (x y1 y2 : Nat) (h1 : PStep cats x y1) (h2 : PStep cats x y2) : y1 = y2 := by
  have e1 := parentOf_of_pstep cats nd x y1 h1
  have e2 := parentOf_of_pstep cats nd x y2 h2
  rw [e1] at e2
  exact Option.some_injective _ e2

theorem orbitN_add (cats : List Categoria) (i j a : Nat) :
    orbitN cats (i + j) a = (orbitN cats i a).bind (orbitN cats j) := by
  induction i generalizing a with
  | zero => simp [orbitN]
  | succ i ih =>
      rw [Nat.succ_add]
      show (match parentOf cats a with
            | some p => orbitN cats (i + j) p
            | none => none) =
          ((match parentOf cats a with
            | some p => orbitN cats i p
            | none => none) : Option Nat).bind (orbitN cats j)
      cases hp : parentOf cats a with
      | none => simp
      | some p => simp [ih p]

theorem reflTransGen_of_orbitN (cats : List Categoria) (k a c : Nat)
    (h : orbitN cats k a = some c) :
    Relation.ReflTransGen (PStep cats) a c := by
  induction k generalizing a with
  | zero =>
      simp [orbitN] at h
      rw [h]
  | succ k ih =>
      unfold orbitN at h
      cases hp : parentOf cats a with
      | none => rw [hp] at h; cases h
      | some p =>
          rw [hp] at h
          exact Relation.ReflTransGen.head (pstep_of_parentOf cats a p hp) (ih p h)

theorem orbitN_of_reflTransGen (cats : List Categoria)
    (nd : (catIds cats).Nodup) (a c : Nat)
    (h : Relation.ReflTransGen (PStep cats) a c) :
    ∃ k, orbitN cats k a = some c := by
  induction h using Relation.ReflTransGen.head_induction_on with
  | refl => exact ⟨0, rfl⟩
  | head hstep _htail ih =>
      obtain ⟨k, hk⟩ := ih
      refine ⟨k + 1, ?_⟩
      unfold orbitN
      rw [parentOf_of_pstep cats nd _ _ hstep]
      exact hk

theorem transGen_of_orbitN_cycle (cats : List Categoria) (k a : Nat)
    (hk : 0 < k) (h : orbitN cats k a = some a) :
    Relation.TransGen (PStep cats) a a := by
  cases k with
  | zero => omega
  | succ k =>
      unfold orbitN at h
      cases hp : parentOf cats a with
      | none => rw [hp] at h; cases h
      | some p =>
          rw [hp] at h
          exact Relation.TransGen.head' (pstep_of_parentOf cats a p hp)
            (reflTransGen_of_orbitN cats k p a h)

theorem orbitN_mem_catIds (cats : List Categoria) (fk : CatFKOk cats)
    (k a c : Nat) (h : orbitN cats (k + 1) a = some c) : c ∈ catIds cats := by
  induction k generalizing a with
  | zero =>
      unfold orbitN at h
      cases hp : parentOf cats a with
      | none => rw [hp] at h; cases h
      | some p =>
          rw [hp] at h
          simp [orbitN] at h
          obtain ⟨row, hrow, _hid, hpai⟩ := pstep_of_parentOf cats a p hp
          rw [← h]
          exact fk row hrow p hpai
  | succ k ih =>
      unfold orbitN at h
      cases hp : parentOf cats a with
      | none => rw [hp] at h; cases h
      | some p => rw [hp] at h; exact ih p h

theorem orbitN_defined_of_le (cats : List Categoria) (i k a c : Nat)
    (hik : i ≤ k) (h : orbitN cats k a = some c) :
    ∃ x, orbitN cats i a = some x := by
  have hsplit : k = i + (k - i) := by omega
  rw [hsplit, orbitN_add] at h
  cases hx : orbitN cats i a with
  | none => rw [hx] at h; cases h
  | some x => exact ⟨x, rfl⟩

theorem orbitN_le_length (cats : List Categoria) (fk : CatFKOk cats)
    (acyc : CatAcyclic cats) (k a c : Nat)
    (h : orbitN cats k a = some c) : k ≤ cats.length := by
  by_contra hgt
  push_neg at hgt
  have hdef : ∀ i, i ≤ cats.length → ∃ x, orbitN cats (i + 1) a = some x := by
    intro i hi
    exact orbitN_defined_of_le cats (i + 1) k a c (by omega) h
  have hmaps : ∀ i ∈ Finset.range (cats.length + 1),
      (orbitN cats (i + 1) a).getD 0 ∈ (catIds cats).toFinset := by
    intro i hi
    obtain ⟨x, hx⟩ := hdef i (Nat.lt_succ_iff.mp (Finset.mem_range.mp hi))
    rw [hx]
    simpa using orbitN_mem_catIds cats fk i a x hx
  have hcard : (catIds cats).toFinset.card < (Finset.range (cats.length + 1)).card := by
    have h1 : (catIds cats).toFinset.card ≤ (catIds cats).length :=
      List.toFinset_card_le _
    have h2 : (catIds cats).length = cats.length := by simp [catIds]
    rw [Finset.card_range]
    omega
  obtain ⟨i, hi, j, hj, hij, hfij⟩ :=
    Finset.exists_ne_map_eq_of_card_lt_of_maps_to hcard hmaps
  have key : ∀ i j : Nat, i ≤ cats.length → j ≤ cats.length → i < j →
      (orbitN cats (i + 1) a).getD 0 = (orbitN cats (j + 1) a).getD 0 → False := by
    intro i j hi hj hlt heq
    obtain ⟨x, hx⟩ := hdef i hi
    obtain ⟨y, hy⟩ := hdef j hj
    rw [hx, hy] at heq
    simp at heq
    have hsplit : j + 1 = (i + 1) + (j - i) := by omega
    rw [hsplit, orbitN_add, hx] at hy
    simp at hy
    rw [heq] at hy
    exact acyc y (transGen_of_orbitN_cycle cats (j - i) y (by omega) hy)
  have hi2 := Nat.lt_succ_iff.mp (Finset.mem_range.mp hi)
  have hj2 := Nat.lt_succ_iff.mp (Finset.mem_range.mp hj)
  rcases Nat.lt_or_ge i j with hlt | hge
  · exact key i j hi2 hj2 hlt hfij
  · have hlt2 : j < i := by omega
    exact key j i hj2 hi2 hlt2 hfij.symm

theorem mem_chainUp_iff (cats : List Categoria) (fuel a c : Nat) :
    c ∈ chainUp cats fuel a ↔ ∃ k, k ≤ fuel ∧ orbitN cats k a = some c := by
  induction fuel generalizing a with
  | zero =>
      constructor
      · intro h
        simp [chainUp] at h
        exact ⟨0, Nat.le_refl 0, by simp [orbitN, h]⟩
      · rintro ⟨k, hk, horb⟩
        have : k = 0 := Nat.le_zero.mp hk
        subst this
        simp [orbitN] at horb
        simp [chainUp, horb]
  | succ fuel ih =>
      show c ∈ a :: (match parentOf cats a with
                     | some p => chainUp cats fuel p
                     | none => []) ↔ _
      cases hp : parentOf cats a with
      | none =>
          simp only [List.mem_cons, List.not_mem_nil, or_false]
          constructor
          · intro h
            exact ⟨0, by omega, by simp [orbitN, h]⟩
          · rintro ⟨k, hk, horb⟩
            cases k with
            | zero => simp [orbitN] at horb; exact horb.symm
            | succ k =>
                unfold orbitN at horb
                rw [hp] at horb
                cases horb
      | some p =>
          simp only [List.mem_cons]
          constructor
          · rintro (rfl | hmem)
            · exact ⟨0, by omega, by simp [orbitN]⟩
            · obtain ⟨k, hk, horb⟩ := (ih p).mp hmem
              refine ⟨k + 1, by omega, ?_⟩
              unfold orbitN
              rw [hp]
              exact horb
          · rintro ⟨k, hk, horb⟩
            cases k with
            | zero => simp [orbitN] at horb; exact Or.inl horb.symm
            | succ k =>
                unfold orbitN at horb
                rw [hp] at horb
                exact Or.inr ((ih p).mpr ⟨k, by omega, horb⟩)

theorem chainUp_sound (cats : List Categoria) (fuel a c : Nat)
    (h : c ∈ chainUp cats fuel a) :
    Relation.ReflTransGen (PStep cats) a c := by
  obtain ⟨k, _, horb⟩ := (mem_chainUp_iff cats fuel a c).mp h
  exact reflTransGen_of_orbitN cats k a c horb

theorem chainUp_complete (cats : List Categoria) (nd : (catIds cats).Nodup)
    (fk : CatFKOk cats) (acyc : CatAcyclic cats) (a c : Nat)
    (h : Relation.ReflTransGen (PStep cats) a c) :
    c ∈ chainUp cats cats.length a := by
  obtain ⟨k, hk⟩ := orbitN_of_reflTransGen cats nd a c h
  exact (mem_chainUp_iff cats cats.length a c).mpr
    ⟨k, orbitN_le_length cats fk acyc k a c hk, hk⟩

/-! ### Generic cycle-manipulation lemmas -/

theorem transGen_cycle_shift {α : Type} (r : α → α → Prop)
    (det : ∀ x y z, r x y → r x z → y = z) (a b : α)
    (hc : Relation.TransGen r a a) (hr : Relation.ReflTransGen r a b) :
    Relation.TransGen r b b := by
  revert hc
  induction hr using Relation.ReflTransGen.head_induction_on with
  | refl => exact id
  | head hstep _htail ih =>
      intro hc
      obtain ⟨w, hw, hwx⟩ := (Relation.TransGen.head'_iff).mp hc
      have hweq := det _ _ _ hw hstep
      subst hweq
      exact ih (Relation.TransGen.tail' hwx hstep)

theorem transGen_elim_no_target {α : Type} (r q : α → α → Prop) (t : α)
    (hno : ∀ x y, r x y → ¬ y = t)
    (hold : ∀ x y, r x y → ¬ x = t → q x y) (a b : α)
    (ha : ¬ a = t) (h : Relation.TransGen r a b) :
    Relation.TransGen q a b := by
  revert ha
  induction h using Relation.TransGen.head_induction_on with
  | base hstep =>
      intro ha
      exact Relation.TransGen.single (hold _ _ hstep ha)
  | ih hstep h2 ih2 =>
      intro ha
      exact Relation.TransGen.head (hold _ _ hstep ha) (ih2 (hno _ _ hstep))

/-! ### Reparenting and inserting categoria rows -/

theorem catIds_reparent (cats : List Categoria) (cid : Nat) (pai : Option Nat) :
    catIds (reparent cats cid pai) = catIds cats := by
  induction cats with
  | nil => rfl
  | cons c cs ih =>
      unfold reparent catIds at *
      simp only [List.map_cons]
      by_cases hc : c.id = cid <;> simp [hc, ih]

theorem pstep_reparent_elim (cats : List Categoria) (cid : Nat)
    (pai : Option Nat) (x y : Nat)
    (h : PStep (reparent cats cid pai) x y) :
    (¬ x = cid ∧ PStep cats x y) ∨ (x = cid ∧ pai = some y) := by
  obtain ⟨c, hc, hid, hpai⟩ := h
  unfold reparent at hc
  obtain ⟨orig, horig, htrans⟩ := List.mem_map.mp hc
  by_cases ho : orig.id = cid
  · right
    rw [if_pos ho] at htrans
    subst htrans
    simp at hid hpai
    exact ⟨hid ▸ ho, hpai⟩
  · left
    rw [if_neg ho] at htrans
    subst htrans
    exact ⟨hid ▸ ho, orig, horig, hid, hpai⟩

theorem pstep_reparent_intro (cats : List Categoria) (cid : Nat)
    (pai : Option Nat) (x y : Nat) (hx : ¬ x = cid)
    (h : PStep cats x y) : PStep (reparent cats cid pai) x y := by
  obtain ⟨c, hc, hid, hpai⟩ := h
  refine ⟨c, ?_, hid, hpai⟩
  unfold reparent
  exact List.mem_map.mpr ⟨c, hc, by rw [if_neg (by rw [hid]; exact hx)]⟩

theorem catFKOk_reparent (cats : List Categoria) (cid : Nat)
    (pai : Option Nat) (fk : CatFKOk cats)
    (hp : ∀ q, pai = some q → q ∈ catIds cats) :
    CatFKOk (reparent cats cid pai) := by
  intro c hc p hpai
  rw [catIds_reparent]
  unfold reparent at hc
  obtain ⟨orig, horig, htrans⟩ := List.mem_map.mp hc
  by_cases ho : orig.id = cid
  · rw [if_pos ho] at htrans
    subst htrans
    exact hp p hpai
  · rw [if_neg ho] at htrans
    subst htrans
    exact fk orig horig p hpai

theorem reparent_reach_cid (cats : List Categoria) (cid p x : Nat)
    (h : Relation.ReflTransGen (PStep (reparent cats cid (some p))) x cid) :
    Relation.ReflTransGen (PStep cats) x cid := by
  induction h using Relation.ReflTransGen.head_induction_on with
  | refl => exact Relation.ReflTransGen.refl
  | head hstep _htail ih =>
      rcases pstep_reparent_elim cats cid (some p) _ _ hstep with ⟨_, hold⟩ | ⟨hx, _⟩
      · exact Relation.ReflTransGen.head hold ih
      · rw [hx]

theorem transGen_reparent_avoid (cats : List Categoria) (cid : Nat)
    (pai : Option Nat) (a b : Nat)
    (hnr : ¬ Relation.ReflTransGen (PStep (reparent cats cid pai)) a cid)
    (h : Relation.TransGen (PStep (reparent cats cid pai)) a b) :
    Relation.TransGen (PStep cats) a b := by
  revert hnr
  induction h using Relation.TransGen.head_induction_on with
  | base hstep =>
      intro hnr
      rcases pstep_reparent_elim _ _ _ _ _ hstep with ⟨_, hold⟩ | ⟨hx, _⟩
      · exact Relation.TransGen.single hold
      · exfalso
        apply hnr
        rw [hx]
  | ih hstep _h2 ih2 =>
      intro hnr
      rcases pstep_reparent_elim _ _ _ _ _ hstep with ⟨_, hold⟩ | ⟨hx, _⟩
      · refine Relation.TransGen.head hold (ih2 ?_)
        intro hr
        exact hnr (Relation.ReflTransGen.head hstep hr)
      · exfalso
        apply hnr
        rw [hx]

theorem catAcyclic_reparent_some (cats : List Categoria)
    (nd : (catIds cats).Nodup) (fk : CatFKOk cats) (acyc : CatAcyclic cats)
    (cid p : Nat) (hchk : ¬ cid ∈ chainUp cats cats.length p) :
    CatAcyclic (reparent cats cid (some p)) := by
  intro a hcyc
  have ndnew : (catIds (reparent cats cid (some p))).Nodup := by
    rw [catIds_reparent]; exact nd
  by_cases hreach : Relation.ReflTransGen (PStep (reparent cats cid (some p))) a cid
  · have hcid : Relation.TransGen (PStep (reparent cats cid (some p))) cid cid :=
      transGen_cycle_shift _ (fun x y z h1 h2 => pstep_det _ ndnew x y z h1 h2)
        a cid hcyc hreach
    obtain ⟨w, hw, hwc⟩ := (Relation.TransGen.head'_iff).mp hcid
    rcases pstep_reparent_elim cats cid (some p) _ _ hw with ⟨hx, _⟩ | ⟨_, hpw⟩
    · exact hx rfl
    · have hwp : w = p := (Option.some_injective _ hpw).symm
      subst hwp
      have hold : Relation.ReflTransGen (PStep cats) w cid :=
        reparent_reach_cid cats cid w w hwc
      exact hchk (chainUp_complete cats nd fk acyc w cid hold)
  · exact acyc a (transGen_reparent_avoid cats cid (some p) a a hreach hcyc)

theorem catAcyclic_reparent_none (cats : List Categoria)
    (acyc : CatAcyclic cats) (cid : Nat) :
    CatAcyclic (reparent cats cid none) := by
  intro a hcyc
  apply acyc a
  refine Relation.TransGen.mono ?_ hcyc
  intro x y hxy
  rcases pstep_reparent_elim cats cid none x y hxy with ⟨_, hold⟩ | ⟨_, hpy⟩
  · exact hold
  · cases hpy

theorem pstep_cons_elim (row : Categoria) (cats : List Categoria) (x y : Nat)
    (h : PStep (row :: cats) x y) :
    (x = row.id ∧ row.categoriaPai = some y) ∨ PStep cats x y := by
  obtain ⟨c, hc, hid, hpai⟩ := h
  rcases List.mem_cons.mp hc with rfl | hcs
  · exact Or.inl ⟨hid.symm, hpai⟩
  · exact Or.inr ⟨c, hcs, hid, hpai⟩

theorem catAcyclic_cons (row : Categoria) (cats : List Categoria)
    (fk : CatFKOk cats) (acyc : CatAcyclic cats)
    (hfresh : ¬ row.id ∈ catIds cats)
    (hpai : ∀ q, row.categoriaPai = some q → q ∈ catIds cats) :
    CatAcyclic (row :: cats) := by
  have hno : ∀ x y, PStep (row :: cats) x y → ¬ y = row.id := by
    intro x y hxy hy
    subst hy
    rcases pstep_cons_elim row cats x row.id hxy with ⟨_, hp⟩ | hold
    · exact hfresh (hpai row.id hp)
    · obtain ⟨c2, hc2, _, hp2⟩ := hold
      exact hfresh (fk c2 hc2 row.id hp2)
  intro a hcyc
  have ha : ¬ a = row.id := by
    obtain ⟨c0, _hc0, hstep⟩ := (Relation.TransGen.tail'_iff).mp hcyc
    exact hno c0 a hstep
  apply acyc a
  apply transGen_elim_no_target (PStep (row :: cats)) (PStep cats) row.id hno
    ?_ a a ha hcyc
  intro x y hxy hx
  rcases pstep_cons_elim row cats x y hxy with ⟨hx2, _⟩ | hold2
  · exact absurd hx2 hx
  · exact hold2

theorem catAcyclic_filter (cats : List Categoria) (acyc : CatAcyclic cats)
    (q : Categoria → Bool) : CatAcyclic (cats.filter q) := by
  intro a hcyc
  apply acyc a
  refine Relation.TransGen.mono ?_ hcyc
  intro x y hxy
  obtain ⟨c, hc, hid, hpai⟩ := hxy
  exact ⟨c, (List.mem_filter.mp hc).1, hid, hpai⟩

theorem catIds_filter_sublist (cats : List Categoria) (q : Categoria → Bool) :
    (catIds (cats.filter q)).Sublist (catIds cats) :=
  (List.filter_sublist cats).map _

theorem catFKOk_cons (row : Categoria) (cats : List Categoria)
    (fk : CatFKOk cats)
    (hpai : ∀ q, row.categoriaPai = some q → q ∈ catIds cats) :
    CatFKOk (row :: cats) := by
  intro c hc p hp
  have hsub : ∀ z, z ∈ catIds cats → z ∈ catIds (row :: cats) := by
    intro z hz
    unfold catIds at *
    simp only [List.map_cons, List.mem_cons]
    exact Or.inr hz
  rcases List.mem_cons.mp hc with rfl | hcs
  · exact hsub p (hpai p hp)
  · exact hsub p (fk c hcs p hp)

/-! ### Descendant sets: the CASCADE collection of the categoria self-FK -/

theorem subset_descSetAux (cats : List Categoria) (fuel : Nat)
    (acc : List Nat) : ∀ y ∈ acc, y ∈ descSetAux cats fuel acc := by
  induction fuel generalizing acc with
  | zero => intro y hy; exact hy
  | succ fuel ih =>
      intro y hy
      unfold descSetAux
      by_cases hadd : descNew cats acc = []
      · rw [if_pos hadd]; exact hy
      · rw [if_neg hadd]
        exact ih (acc ++ descNew cats acc) y (List.mem_append_left _ hy)

theorem descSetAux_closed (cats : List Categoria) (fuel : Nat)
    (acc : List Nat)
    (hfuel : cats.countP (fun c => !(acc.contains c.id)) ≤ fuel) :
    ∀ c ∈ cats, ∀ p, c.categoriaPai = some p →
      p ∈ descSetAux cats fuel acc → c.id ∈ descSetAux cats fuel acc := by
  induction fuel generalizing acc with
  | zero =>
      intro c hc p _hp hpmem
      have hzero : cats.countP (fun c => !(acc.contains c.id)) = 0 :=
        Nat.le_zero.mp hfuel
      have := List.countP_eq_zero.mp hzero c hc
      simp at this
      exact this
  | succ fuel ih =>
      intro c hc p hp hpmem
      unfold descSetAux at hpmem ⊢
      by_cases hadd : descNew cats acc = []
      · rw [if_pos hadd] at hpmem ⊢
        by_contra hcnot
        have hcfilter : c ∈ cats.filter
            (fun c => !(acc.contains c.id) &&
              (match c.categoriaPai with
               | some p => acc.contains p
               | none => false)) := by
          refine List.mem_filter.mpr ⟨hc, ?_⟩
          rw [hp]
          simp
          constructor
          · intro hmem; exact hcnot hmem
          · exact hpmem
        have : c.id ∈ descNew cats acc :=
          List.mem_map.mpr ⟨c, hcfilter, rfl⟩
        rw [hadd] at this
        cases this
      · rw [if_neg hadd] at hpmem ⊢
        have hwit : ∃ c0, c0 ∈ cats.filter
            (fun c => !(acc.contains c.id) &&
              (match c.categoriaPai with
               | some p => acc.contains p
               | none => false)) := by
          obtain ⟨idv, hidv⟩ := List.exists_mem_of_ne_nil _ hadd
          obtain ⟨c0, hc0, _⟩ := List.mem_map.mp hidv
          exact ⟨c0, hc0⟩
        obtain ⟨c0, hc0f⟩ := hwit
        have hc0 := List.mem_filter.mp hc0f
        have hfuel2 : cats.countP
            (fun c => !((acc ++ descNew cats acc).contains c.id)) ≤ fuel := by
          have hlt := countP_lt_countP cats
            (fun c => !(acc.contains c.id))
            (fun c => !((acc ++ descNew cats acc).contains c.id))
            (by
              intro a _ha hqa
              simp at hqa ⊢
              exact hqa.1)
            c0 hc0.1
            (by
              have := hc0.2
              simp at this ⊢
              exact this.1)
            (by
              have hidmem : c0.id ∈ descNew cats acc :=
                List.mem_map.mpr ⟨c0, hc0f, rfl⟩
              simp
              exact fun _ => hidmem)
          omega
        exact ih (acc ++ descNew cats acc) hfuel2 c hc p hp hpmem

theorem descSet_closed (cats : List Categoria) (root : Nat) :
    ∀ c ∈ cats, ∀ p, c.categoriaPai = some p →
      p ∈ descSet cats root → c.id ∈ descSet cats root := by
  unfold descSet
  exact descSetAux_closed cats cats.length [root]
    (le_trans (List.countP_le_length _) (le_refl _))

theorem root_mem_descSet (cats : List Categoria) (root : Nat) :
    root ∈ descSet cats root :=
  subset_descSetAux cats cats.length [root] root (by simp)

theorem descSetAux_sound (cats : List Categoria) (fuel : Nat) (root : Nat)
    (acc : List Nat)
    (hacc : ∀ y ∈ acc, y = root ∨
      Relation.TransGen (fun a b => PStep cats b a) root y) :
    ∀ y ∈ descSetAux cats fuel acc, y = root ∨
      Relation.TransGen (fun a b => PStep cats b a) root y := by
  induction fuel generalizing acc with
  | zero => exact hacc
  | succ fuel ih =>
      intro y hy
      unfold descSetAux at hy
      by_cases hadd : descNew cats acc = []
      · rw [if_pos hadd] at hy; exact hacc y hy
      · rw [if_neg hadd] at hy
        refine ih (acc ++ descNew cats acc) ?_ y hy
        intro z hz
        rcases List.mem_append.mp hz with hz1 | hz2
        · exact hacc z hz1
        · obtain ⟨c, hcf, hcz⟩ := List.mem_map.mp hz2
          have hc := List.mem_filter.mp hcf
          have hpred := hc.2
          rw [Bool.and_eq_true] at hpred
          cases hcp : c.categoriaPai with
          | none => rw [hcp] at hpred; simp at hpred
          | some p =>
              rw [hcp] at hpred
              have hpacc : p ∈ acc := by
                have := hpred.2
                simpa using this
              have hstep : PStep cats c.id p := ⟨c, hc.1, rfl, hcp⟩
              rcases hacc p hpacc with rfl | htg
              · exact Or.inr (hcz ▸ Relation.TransGen.single hstep)
              · exact Or.inr (hcz ▸ Relation.TransGen.tail htg hstep)

theorem mem_descSet_iff (cats : List Categoria) (root y : Nat) :
    y ∈ descSet cats root ↔
      (y = root ∨ Relation.TransGen (fun a b => PStep cats b a) root y) := by
  constructor
  · intro h
    exact descSetAux_sound cats cats.length root [root]
      (by intro z hz; simp at hz; exact Or.inl hz) y h
  · rintro (rfl | htg)
    · exact root_mem_descSet cats y
    · induction htg with
      | single hstep =>
          obtain ⟨c, hc, hcy, hcp⟩ := hstep
          exact hcy ▸ descSet_closed cats root c hc root hcp
            (root_mem_descSet cats root)
      | tail _htg2 hstep ih =>
          obtain ⟨c, hc, hcy, hcp⟩ := hstep
          exact hcy ▸ descSet_closed cats root c hc _ hcp ih

theorem catFKOk_filter_descSet (cats : List Categoria) (fk : CatFKOk cats)
    (root : Nat) :
    CatFKOk (cats.filter (fun c => ¬ c.id ∈ descSet cats root)) := by
  intro c hc p hp
  have hcm := List.mem_filter.mp hc
  have hcnot : ¬ c.id ∈ descSet cats root := by
    have := hcm.2
    simpa using this
  have hpid : p ∈ catIds cats := fk c hcm.1 p hp
  obtain ⟨rowp, hrowp, hrowpid⟩ := List.mem_map.mp hpid
  by_cases hpds : p ∈ descSet cats root
  · exact absurd (descSet_closed cats root c hcm.1 p hp hpds) hcnot
  · refine List.mem_map.mpr ⟨rowp, ?_, hrowpid⟩
    refine List.mem_filter.mpr ⟨hrowp, ?_⟩
    simp
    rw [hrowpid]
    exact hpds

/-! ### Preservation of the store invariant -/

theorem storeInv_congr (s s2 : Store)
    (hg : s2.garcons = s.garcons) (hx : s2.caixas = s.caixas)
    (hk : s2.cozinhas = s.cozinhas) (hger : s2.gerentes = s.gerentes)
    (husub : ∀ u ∈ s.usuarios, u ∈ s2.usuarios)
    (hpag : s2.pagamentos = s.pagamentos)
    (hdin : s2.pagamentoDinheiro = s.pagamentoDinheiro)
    (hct : s2.pagamentoCartao = s.pagamentoCartao)
    (hch : s2.pagamentoCheque = s.pagamentoCheque)
    (hcat : s2.categorias = s.categorias)
    (inv : StoreInv s) : StoreInv s2 := by
  constructor
  · intro uid
    unfold roleCount
    rw [hg, hx, hk, hger]
    exact inv.roleLe uid
  · intro g hgm
    rw [hg] at hgm
    obtain ⟨u, hu, he⟩ := inv.garcomUsuario g hgm
    exact ⟨u, husub u hu, he⟩
  · intro x hxm
    rw [hx] at hxm
    obtain ⟨u, hu, he⟩ := inv.caixaUsuario x hxm
    exact ⟨u, husub u hu, he⟩
  · intro x hxm
    rw [hk] at hxm
    obtain ⟨u, hu, he⟩ := inv.cozinhaUsuario x hxm
    exact ⟨u, husub u hu, he⟩
  · intro x hxm
    rw [hger] at hxm
    obtain ⟨u, hu, he⟩ := inv.gerenteUsuario x hxm
    exact ⟨u, husub u hu, he⟩
  · intro cid
    rw [hpag]
    exact inv.pagPerConta cid
  · rw [hpag]
    exact inv.pagNodup
  · intro pg hpgm
    rw [hpag] at hpgm
    unfold specCount
    rw [hdin, hct, hch]
    exact inv.pagSpecOne pg hpgm
  · intro x hxm
    rw [hdin] at hxm
    rw [hpag]
    exact inv.dinheiroBase x hxm
  · intro r hrm
    rw [hct] at hrm
    rw [hpag]
    exact inv.cartaoBase r hrm
  · intro r hrm
    rw [hch] at hrm
    rw [hpag]
    exact inv.chequeBase r hrm
  · rw [hcat]
    exact inv.catNodup
  · rw [hcat]
    exact inv.catFK
  · rw [hcat]
    exact inv.catAcyc

theorem roleCount_cons_garcom (s : Store) (g : Garcom) (u2 : Nat) :
    roleCount { s with garcons := g :: s.garcons } u2 =
      roleCount s u2 + (if g.usuarioId == u2 then 1 else 0) := by
  unfold roleCount
  simp only [List.countP_cons]
  omega

theorem roleCount_cons_caixa (s : Store) (x : Nat) (u2 : Nat) :
    roleCount { s with caixas := x :: s.caixas } u2 =
      roleCount s u2 + (if x == u2 then 1 else 0) := by
  unfold roleCount
  simp only [List.countP_cons]
  omega

theorem roleCount_cons_cozinha (s : Store) (x : Nat) (u2 : Nat) :
    roleCount { s with cozinhas := x :: s.cozinhas } u2 =
      roleCount s u2 + (if x == u2 then 1 else 0) := by
  unfold roleCount
  simp only [List.countP_cons]
  omega

theorem roleCount_cons_gerente (s : Store) (x : Nat) (u2 : Nat) :
    roleCount { s with gerentes := x :: s.gerentes } u2 =
      roleCount s u2 + (if x == u2 then 1 else 0) := by
  unfold roleCount
  simp only [List.countP_cons]
  omega

theorem storeInv_especializar (k : Papel) (uid rid : Nat) (s s2 : Store)
    (h : especializar k uid rid s = .ok s2) (inv : StoreInv s) :
    StoreInv s2 := by
  unfold especializar at h
  split at h
  · rename_i hu
    split at h
    · rename_i hrole
      split at h
      · -- garcom
        split at h
        · cases h
          refine ⟨?_, ?_, inv.caixaUsuario, inv.cozinhaUsuario,
            inv.gerenteUsuario, inv.pagPerConta, inv.pagNodup,
            inv.pagSpecOne, inv.dinheiroBase, inv.cartaoBase,
            inv.chequeBase, inv.catNodup, inv.catFK, inv.catAcyc⟩
          · intro u2
            rw [roleCount_cons_garcom]
            by_cases he : uid = u2
            · subst he
              rw [hrole]
              simp
            · have hne : (uid == u2) = false := beq_eq_false_iff_ne.mpr he
              simp [hne]
              exact inv.roleLe u2
          · intro g hgm
            rcases List.mem_cons.mp hgm with rfl | hgs
            · obtain ⟨u, hum, hue⟩ := hu
              exact ⟨u, hum, hue⟩
            · exact inv.garcomUsuario g hgs
        · cases h
      · -- caixa
        cases h
        refine ⟨?_, inv.garcomUsuario, ?_, inv.cozinhaUsuario,
          inv.gerenteUsuario, inv.pagPerConta, inv.pagNodup,
          inv.pagSpecOne, inv.dinheiroBase, inv.cartaoBase,
          inv.chequeBase, inv.catNodup, inv.catFK, inv.catAcyc⟩
        · intro u2
          rw [roleCount_cons_caixa]
          by_cases he : uid = u2
          · subst he
            rw [hrole]
            simp
          · have hne : (uid == u2) = false := beq_eq_false_iff_ne.mpr he
            simp [hne]
            exact inv.roleLe u2
        · intro x hxm
          rcases List.mem_cons.mp hxm with rfl | hxs
          · obtain ⟨u, hum, hue⟩ := hu
            exact ⟨u, hum, hue⟩
          · exact inv.caixaUsuario x hxs
      · -- cozinha
        cases h
        refine ⟨?_, inv.garcomUsuario, inv.caixaUsuario, ?_,
          inv.gerenteUsuario, inv.pagPerConta, inv.pagNodup,
          inv.pagSpecOne, inv.dinheiroBase, inv.cartaoBase,
          inv.chequeBase, inv.catNodup, inv.catFK, inv.catAcyc⟩
        · intro u2
          rw [roleCount_cons_cozinha]
          by_cases he : uid = u2
          · subst he
            rw [hrole]
            simp
          · have hne : (uid == u2) = false := beq_eq_false_iff_ne.mpr he
            simp [hne]
            exact inv.roleLe u2
        · intro x hxm
          rcases List.mem_cons.mp hxm with rfl | hxs
          · obtain ⟨u, hum, hue⟩ := hu
            exact ⟨u, hum, hue⟩
          · exact inv.cozinhaUsuario x hxs
      · -- gerente
        cases h
        refine ⟨?_, inv.garcomUsuario, inv.caixaUsuario,
          inv.cozinhaUsuario, ?_, inv.pagPerConta, inv.pagNodup,
          inv.pagSpecOne, inv.dinheiroBase, inv.cartaoBase,
          inv.chequeBase, inv.catNodup, inv.catFK, inv.catAcyc⟩
        · intro u2
          rw [roleCount_cons_gerente]
          by_cases he : uid = u2
          · subst he
            rw [hrole]
            simp
          · have hne : (uid == u2) = false := beq_eq_false_iff_ne.mpr he
            simp [hne]
            exact inv.roleLe u2
        · intro x hxm
          rcases List.mem_cons.mp hxm with rfl | hxs
          · obtain ⟨u, hum, hue⟩ := hu
            exact ⟨u, hum, hue⟩
          · exact inv.gerenteUsuario x hxs
    · cases h
  · cases h

theorem storeInv_criarUsuario (id : Nat) (nome login senha : String)
    (s s2 : Store) (h : criarUsuario id nome login senha s = .ok s2)
    (inv : StoreInv s) : StoreInv s2 := by
  unfold criarUsuario at h
  split at h
  · cases h
  · split at h
    · cases h
    · cases h
      exact storeInv_congr s _ rfl rfl rfl rfl
        (fun u hu => List.mem_cons_of_mem _ hu) rfl rfl rfl rfl rfl inv

theorem storeInv_excluirGarcom (uid : Nat) (s s2 : Store)
    (h : excluirGarcom uid s = .ok s2) (inv : StoreInv s) : StoreInv s2 := by
  unfold excluirGarcom at h
  split at h
  · rename_i hg
    split at h
    · cases h
    · cases h
      obtain ⟨g0, hg0, hg0e⟩ := hg
      have hgpos : 0 < s.garcons.countP (fun g => g.usuarioId == uid) :=
        List.countP_pos_iff.mpr ⟨g0, hg0, by simp [hg0e]⟩
      have hsum := inv.roleLe uid
      unfold roleCount at hsum
      refine ⟨?_, ?_, ?_, ?_, ?_, inv.pagPerConta, inv.pagNodup,
        inv.pagSpecOne, inv.dinheiroBase, inv.cartaoBase,
        inv.chequeBase, inv.catNodup, inv.catFK, inv.catAcyc⟩
      · intro u2
        have hsub : (s.garcons.filter (fun g => ¬ g.usuarioId = uid)).Sublist
            s.garcons := List.filter_sublist s.garcons
        have hle := hsub.countP_le (fun g => g.usuarioId == u2)
        have := inv.roleLe u2
        unfold roleCount at this ⊢
        dsimp only
        omega
      · intro g hgm
        have hgm2 := List.mem_filter.mp hgm
        have hgne : ¬ g.usuarioId = uid := by
          have := hgm2.2
          simpa using this
        obtain ⟨u, hum, hue⟩ := inv.garcomUsuario g hgm2.1
        refine ⟨u, List.mem_filter.mpr ⟨hum, ?_⟩, hue⟩
        simp
        rw [hue]
        exact hgne
      · intro x hxm
        have hxne : ¬ x = uid := by
          intro hxe
          have : 0 < s.caixas.countP (fun c => c == uid) :=
            List.countP_pos_iff.mpr ⟨x, hxm, by simp [hxe]⟩
          omega
        obtain ⟨u, hum, hue⟩ := inv.caixaUsuario x hxm
        refine ⟨u, List.mem_filter.mpr ⟨hum, ?_⟩, hue⟩
        simp
        rw [hue]
        exact hxne
      · intro x hxm
        have hxne : ¬ x = uid := by
          intro hxe
          have : 0 < s.cozinhas.countP (fun c => c == uid) :=
            List.countP_pos_iff.mpr ⟨x, hxm, by simp [hxe]⟩
          omega
        obtain ⟨u, hum, hue⟩ := inv.cozinhaUsuario x hxm
        refine ⟨u, List.mem_filter.mpr ⟨hum, ?_⟩, hue⟩
        simp
        rw [hue]
        exact hxne
      · intro x hxm
        have hxne : ¬ x = uid := by
          intro hxe
          have : 0 < s.gerentes.countP (fun c => c == uid) :=
            List.countP_pos_iff.mpr ⟨x, hxm, by simp [hxe]⟩
          omega
        obtain ⟨u, hum, hue⟩ := inv.gerenteUsuario x hxm
        refine ⟨u, List.mem_filter.mpr ⟨hum, ?_⟩, hue⟩
        simp
        rw [hue]
        exact hxne
  · cases h

theorem din_countP_zero (s : Store) (pid : Nat) (inv : StoreInv s)
    (hfresh : ¬ ∃ pg ∈ s.pagamentos, pg.id = pid) :
    s.pagamentoDinheiro.countP (fun x => x == pid) = 0 := by
  apply List.countP_eq_zero.mpr
  intro x hx
  simp
  intro he
  obtain ⟨pg, hpg, hpge⟩ := inv.dinheiroBase x hx
  exact hfresh ⟨pg, hpg, by rw [hpge, he]⟩

theorem cartao_countP_zero (s : Store) (pid : Nat) (inv : StoreInv s)
    (hfresh : ¬ ∃ pg ∈ s.pagamentos, pg.id = pid) :
    s.pagamentoCartao.countP (fun r => r.pagamentoId == pid) = 0 := by
  apply List.countP_eq_zero.mpr
  intro r hr
  simp
  intro he
  obtain ⟨pg, hpg, hpge⟩ := inv.cartaoBase r hr
  exact hfresh ⟨pg, hpg, by rw [hpge, he]⟩

theorem cheque_countP_zero (s : Store) (pid : Nat) (inv : StoreInv s)
    (hfresh : ¬ ∃ pg ∈ s.pagamentos, pg.id = pid) :
    s.pagamentoCheque.countP (fun r => r.pagamentoId == pid) = 0 := by
  apply List.countP_eq_zero.mpr
  intro r hr
  simp
  intro he
  obtain ⟨pg, hpg, hpge⟩ := inv.chequeBase r hr
  exact hfresh ⟨pg, hpg, by rw [hpge, he]⟩

theorem pag_countP_conta_zero (s : Store) (cid : Nat)
    (hnp : ¬ ∃ pg ∈ s.pagamentos, pg.contaId = cid) :
    s.pagamentos.countP (fun pg => pg.contaId == cid) = 0 := by
  apply List.countP_eq_zero.mpr
  intro pg hpg
  simp
  intro he
  exact hnp ⟨pg, hpg, he⟩

theorem pagPerConta_cons (s : Store) (row : Pagamento)
    (inv : StoreInv s)
    (hnp : ¬ ∃ pg ∈ s.pagamentos, pg.contaId = row.contaId) (c2 : Nat) :
    (row :: s.pagamentos).countP (fun pg => pg.contaId == c2) ≤ 1 := by
  rw [List.countP_cons]
  by_cases he : row.contaId = c2
  · subst he
    rw [pag_countP_conta_zero s row.contaId hnp]
    simp
  · have hne : (row.contaId == c2) = false := beq_eq_false_iff_ne.mpr he
    simp [hne]
    exact inv.pagPerConta c2

theorem pagNodup_cons (s : Store) (row : Pagamento) (inv : StoreInv s)
    (hfresh : ¬ ∃ pg ∈ s.pagamentos, pg.id = row.id) :
    ((row :: s.pagamentos).map (fun pg => pg.id)).Nodup := by
  simp only [List.map_cons, List.nodup_cons]
  refine ⟨?_, inv.pagNodup⟩
  intro hmem
  obtain ⟨pg, hpg, hpge⟩ := List.mem_map.mp hmem
  exact hfresh ⟨pg, hpg, hpge⟩

theorem storeInv_pagar (pid cid : Nat) (valor : Int) (dataHora : Nat)
    (m : Metodo) (d : Detalhes) (s s2 : Store)
    (h : pagar pid cid valor dataHora m d s = .ok s2) (inv : StoreInv s) :
    StoreInv s2 := by
  unfold pagar at h
  split at h
  · rename_i hconta
    split at h
    · cases h
    · rename_i hnp
      split at h
      · -- dinheiro
        split at h
        · cases h
        · rename_i hfresh
          cases h
          refine ⟨inv.roleLe, inv.garcomUsuario, inv.caixaUsuario,
            inv.cozinhaUsuario, inv.gerenteUsuario, ?_, ?_, ?_, ?_, ?_, ?_,
            inv.catNodup, inv.catFK, inv.catAcyc⟩
          · exact pagPerConta_cons s ⟨pid, cid, valor, dataHora⟩ inv hnp
          · exact pagNodup_cons s ⟨pid, cid, valor, dataHora⟩ inv hfresh
          · intro pg hpg
            rcases List.mem_cons.mp hpg with rfl | hpgs
            · unfold specCount
              dsimp only
              rw [List.countP_cons]
              rw [din_countP_zero s pid inv hfresh,
                cartao_countP_zero s pid inv hfresh,
                cheque_countP_zero s pid inv hfresh]
              simp
            · have hne : ¬ pg.id = pid := fun he => hfresh ⟨pg, hpgs, he⟩
              have hnb : (pid == pg.id) = false :=
                beq_eq_false_iff_ne.mpr (fun he => hne he.symm)
              have hold := inv.pagSpecOne pg hpgs
              unfold specCount at hold ⊢
              dsimp only
              rw [List.countP_cons]
              simp [hnb]
              omega
          · intro x hx
            rcases List.mem_cons.mp hx with rfl | hxs
            · exact ⟨⟨x, cid, valor, dataHora⟩, List.mem_cons_self _ _, rfl⟩
            · obtain ⟨pg, hpg, hpge⟩ := inv.dinheiroBase x hxs
              exact ⟨pg, List.mem_cons_of_mem _ hpg, hpge⟩
          · intro r hr
            obtain ⟨pg, hpg, hpge⟩ := inv.cartaoBase r hr
            exact ⟨pg, List.mem_cons_of_mem _ hpg, hpge⟩
          · intro r hr
            obtain ⟨pg, hpg, hpge⟩ := inv.chequeBase r hr
            exact ⟨pg, List.mem_cons_of_mem _ hpg, hpge⟩
      · -- cartao
        rename_i n
        split at h
        · cases h
        · rename_i hfresh
          cases h
          refine ⟨inv.roleLe, inv.garcomUsuario, inv.caixaUsuario,
            inv.cozinhaUsuario, inv.gerenteUsuario, ?_, ?_, ?_, ?_, ?_, ?_,
            inv.catNodup, inv.catFK, inv.catAcyc⟩
          · exact pagPerConta_cons s ⟨pid, cid, valor, dataHora⟩ inv hnp
          · exact pagNodup_cons s ⟨pid, cid, valor, dataHora⟩ inv hfresh
          · intro pg hpg
            rcases List.mem_cons.mp hpg with rfl | hpgs
            · unfold specCount
              dsimp only
              rw [List.countP_cons]
              rw [din_countP_zero s pid inv hfresh,
                cartao_countP_zero s pid inv hfresh,
                cheque_countP_zero s pid inv hfresh]
              simp
            · have hne : ¬ pg.id = pid := fun he => hfresh ⟨pg, hpgs, he⟩
              have hnb : (pid == pg.id) = false :=
                beq_eq_false_iff_ne.mpr (fun he => hne he.symm)
              have hold := inv.pagSpecOne pg hpgs
              unfold specCount at hold ⊢
              dsimp only
              rw [List.countP_cons]
              simp [hnb]
              omega
          · intro x hx
            obtain ⟨pg, hpg, hpge⟩ := inv.dinheiroBase x hx
            exact ⟨pg, List.mem_cons_of_mem _ hpg, hpge⟩
          · intro r hr
            rcases List.mem_cons.mp hr with rfl | hrs
            · exact ⟨⟨pid, cid, valor, dataHora⟩, List.mem_cons_self _ _, rfl⟩
            · obtain ⟨pg, hpg, hpge⟩ := inv.cartaoBase r hrs
              exact ⟨pg, List.mem_cons_of_mem _ hpg, hpge⟩
          · intro r hr
            obtain ⟨pg, hpg, hpge⟩ := inv.chequeBase r hr
            exact ⟨pg, List.mem_cons_of_mem _ hpg, hpge⟩
      · -- cheque
        rename_i n
        split at h
        · cases h
        · rename_i hfresh
          cases h
          refine ⟨inv.roleLe, inv.garcomUsuario, inv.caixaUsuario,
            inv.cozinhaUsuario, inv.gerenteUsuario, ?_, ?_, ?_, ?_, ?_, ?_,
            inv.catNodup, inv.catFK, inv.catAcyc⟩
          · exact pagPerConta_cons s ⟨pid, cid, valor, dataHora⟩ inv hnp
          · exact pagNodup_cons s ⟨pid, cid, valor, dataHora⟩ inv hfresh
          · intro pg hpg
            rcases List.mem_cons.mp hpg with rfl | hpgs
            · unfold specCount
              dsimp only
              rw [List.countP_cons]
              rw [din_countP_zero s pid inv hfresh,
                cartao_countP_zero s pid inv hfresh,
                cheque_countP_zero s pid inv hfresh]
              simp
            · have hne : ¬ pg.id = pid := fun he => hfresh ⟨pg, hpgs, he⟩
              have hnb : (pid == pg.id) = false :=
                beq_eq_false_iff_ne.mpr (fun he => hne he.symm)
              have hold := inv.pagSpecOne pg hpgs
              unfold specCount at hold ⊢
              dsimp only
              rw [List.countP_cons]
              simp [hnb]
              omega
          · intro x hx
            obtain ⟨pg, hpg, hpge⟩ := inv.dinheiroBase x hx
            exact ⟨pg, List.mem_cons_of_mem _ hpg, hpge⟩
          · intro r hr
            obtain ⟨pg, hpg, hpge⟩ := inv.cartaoBase r hr
            exact ⟨pg, List.mem_cons_of_mem _ hpg, hpge⟩
          · intro r hr
            rcases List.mem_cons.mp hr with rfl | hrs
            · exact ⟨⟨pid, cid, valor, dataHora⟩, List.mem_cons_self _ _, rfl⟩
            · obtain ⟨pg, hpg, hpge⟩ := inv.chequeBase r hrs
              exact ⟨pg, List.mem_cons_of_mem _ hpg, hpge⟩
      · cases h
  · cases h

theorem storeInv_excluirConta (cid : Nat) (s s2 : Store)
    (h : excluirConta cid s = .ok s2) (inv : StoreInv s) : StoreInv s2 := by
  unfold excluirConta at h
  split at h
  · cases h
    refine ⟨inv.roleLe, inv.garcomUsuario, inv.caixaUsuario,
      inv.cozinhaUsuario, inv.gerenteUsuario, ?_, ?_, ?_, ?_, ?_, ?_,
      inv.catNodup, inv.catFK, inv.catAcyc⟩
    · intro c2
      have hsub : (s.pagamentos.filter (fun pg => ¬ pg.contaId = cid)).Sublist
          s.pagamentos := List.filter_sublist s.pagamentos
      have h1 := hsub.countP_le (fun pg => pg.contaId == c2)
      have h2 := inv.pagPerConta c2
      dsimp only
      omega
    · dsimp only
      have hsub : (s.pagamentos.filter (fun pg => ¬ pg.contaId = cid)).Sublist
          s.pagamentos := List.filter_sublist s.pagamentos
      exact inv.pagNodup.sublist (hsub.map _)
    · intro pgr hpgr
      have hm := List.mem_filter.mp hpgr
      have hkeep : ¬ pgr.contaId = cid := by
        have hk := hm.2
        simp only [decide_eq_true_iff] at hk
        exact hk
      have hold := inv.pagSpecOne pgr hm.1
      have hkeepfun : ∀ x : Nat, x = pgr.id →
          ¬ ∃ pg ∈ s.pagamentos, pg.id = x ∧ pg.contaId = cid := by
        rintro x rfl ⟨pgb, hpgb, hpgbid, hpgbconta⟩
        have hbe : pgb = pgr :=
          List.inj_on_of_nodup_map inv.pagNodup hpgb hm.1 hpgbid
        rw [hbe] at hpgbconta
        exact hkeep hpgbconta
      have hd : ((s.pagamentoDinheiro.filter
            (fun x => ¬ ∃ pg ∈ s.pagamentos, pg.id = x ∧ pg.contaId = cid)).countP
              (fun x => x == pgr.id)) =
          s.pagamentoDinheiro.countP (fun x => x == pgr.id) := by
        apply countP_filter_eq
        intro a _ha hpa
        simp only [beq_iff_eq] at hpa
        simp only [decide_eq_true_iff]
        exact hkeepfun a hpa
      have hct : ((s.pagamentoCartao.filter
            (fun r => ¬ ∃ pg ∈ s.pagamentos,
              pg.id = r.pagamentoId ∧ pg.contaId = cid)).countP
                (fun r => r.pagamentoId == pgr.id)) =
          s.pagamentoCartao.countP (fun r => r.pagamentoId == pgr.id) := by
        apply countP_filter_eq
        intro a _ha hpa
        simp only [beq_iff_eq] at hpa
        simp only [decide_eq_true_iff]
        exact hkeepfun a.pagamentoId hpa
      have hch : ((s.pagamentoCheque.filter
            (fun r => ¬ ∃ pg ∈ s.pagamentos,
              pg.id = r.pagamentoId ∧ pg.contaId = cid)).countP
                (fun r => r.pagamentoId == pgr.id)) =
          s.pagamentoCheque.countP (fun r => r.pagamentoId == pgr.id) := by
        apply countP_filter_eq
        intro a _ha hpa
        simp only [beq_iff_eq] at hpa
        simp only [decide_eq_true_iff]
        exact hkeepfun a.pagamentoId hpa
      unfold specCount at hold ⊢
      dsimp only
      rw [hd, hct, hch]
      exact hold
    · intro x hx
      have hm := List.mem_filter.mp hx
      have hkeep : ¬ ∃ pg ∈ s.pagamentos, pg.id = x ∧ pg.contaId = cid := by
        have hk := hm.2
        simp only [decide_eq_true_iff] at hk
        exact hk
      obtain ⟨pg0, hpg0, hpg0e⟩ := inv.dinheiroBase x hm.1
      have hne : ¬ pg0.contaId = cid := fun hc => hkeep ⟨pg0, hpg0, hpg0e, hc⟩
      refine ⟨pg0, List.mem_filter.mpr ⟨hpg0, ?_⟩, hpg0e⟩
      simp only [decide_eq_true_iff]
      exact hne
    · intro r hr
      have hm := List.mem_filter.mp hr
      have hkeep : ¬ ∃ pg ∈ s.pagamentos,
          pg.id = r.pagamentoId ∧ pg.contaId = cid := by
        have hk := hm.2
        simp only [decide_eq_true_iff] at hk
        exact hk
      obtain ⟨pg0, hpg0, hpg0e⟩ := inv.cartaoBase r hm.1
      have hne : ¬ pg0.contaId = cid := fun hc => hkeep ⟨pg0, hpg0, hpg0e, hc⟩
      refine ⟨pg0, List.mem_filter.mpr ⟨hpg0, ?_⟩, hpg0e⟩
      simp only [decide_eq_true_iff]
      exact hne
    · intro r hr
      have hm := List.mem_filter.mp hr
      have hkeep : ¬ ∃ pg ∈ s.pagamentos,
          pg.id = r.pagamentoId ∧ pg.contaId = cid := by
        have hk := hm.2
        simp only [decide_eq_true_iff] at hk
        exact hk
      obtain ⟨pg0, hpg0, hpg0e⟩ := inv.chequeBase r hm.1
      have hne : ¬ pg0.contaId = cid := fun hc => hkeep ⟨pg0, hpg0, hpg0e, hc⟩
      refine ⟨pg0, List.mem_filter.mpr ⟨hpg0, ?_⟩, hpg0e⟩
      simp only [decide_eq_true_iff]
      exact hne
  · cases h

theorem storeInv_criarCategoria (id : Nat) (nome : String) (pai : Option Nat)
    (s s2 : Store) (h : criarCategoria id nome pai s = .ok s2)
    (inv : StoreInv s) : StoreInv s2 := by
  unfold criarCategoria at h
  split at h
  · cases h
  · rename_i hfresh
    have hidfresh : ¬ id ∈ catIds s.categorias := by
      intro hmem
      obtain ⟨c, hc, hce⟩ := List.mem_map.mp hmem
      exact hfresh ⟨c, hc, hce⟩
    split at h
    · cases h
      refine ⟨inv.roleLe, inv.garcomUsuario, inv.caixaUsuario,
        inv.cozinhaUsuario, inv.gerenteUsuario, inv.pagPerConta,
        inv.pagNodup, inv.pagSpecOne, inv.dinheiroBase, inv.cartaoBase,
        inv.chequeBase, ?_, ?_, ?_⟩
      · unfold catIds
        simp only [List.map_cons, List.nodup_cons]
        exact ⟨hidfresh, inv.catNodup⟩
      · exact catFKOk_cons _ _ inv.catFK (fun q hq => nomatch hq)
      · exact catAcyclic_cons _ _ inv.catFK inv.catAcyc hidfresh
          (fun q hq => nomatch hq)
    · rename_i p
      split at h
      · rename_i hp
        split at h
        · cases h
        · cases h
          refine ⟨inv.roleLe, inv.garcomUsuario, inv.caixaUsuario,
            inv.cozinhaUsuario, inv.gerenteUsuario, inv.pagPerConta,
            inv.pagNodup, inv.pagSpecOne, inv.dinheiroBase, inv.cartaoBase,
            inv.chequeBase, ?_, ?_, ?_⟩
          · unfold catIds
            simp only [List.map_cons, List.nodup_cons]
            exact ⟨hidfresh, inv.catNodup⟩
          · exact catFKOk_cons _ _ inv.catFK
              (fun q hq => (Option.some_injective _ hq) ▸ hp)
          · exact catAcyclic_cons _ _ inv.catFK inv.catAcyc hidfresh
              (fun q hq => (Option.some_injective _ hq) ▸ hp)
      · cases h

theorem storeInv_definirCategoriaPai (id : Nat) (pai : Option Nat)
    (s s2 : Store) (h : definirCategoriaPai id pai s = .ok s2)
    (inv : StoreInv s) : StoreInv s2 := by
  unfold definirCategoriaPai at h
  split at h
  · split at h
    · cases h
      refine ⟨inv.roleLe, inv.garcomUsuario, inv.caixaUsuario,
        inv.cozinhaUsuario, inv.gerenteUsuario, inv.pagPerConta,
        inv.pagNodup, inv.pagSpecOne, inv.dinheiroBase, inv.cartaoBase,
        inv.chequeBase, ?_, ?_, ?_⟩
      · rw [catIds_reparent]
        exact inv.catNodup
      · exact catFKOk_reparent _ _ _ inv.catFK (fun q hq => nomatch hq)
      · exact catAcyclic_reparent_none _ inv.catAcyc id
    · rename_i p
      split at h
      · rename_i hp
        split at h
        · cases h
        · rename_i hchk
          cases h
          refine ⟨inv.roleLe, inv.garcomUsuario, inv.caixaUsuario,
            inv.cozinhaUsuario, inv.gerenteUsuario, inv.pagPerConta,
            inv.pagNodup, inv.pagSpecOne, inv.dinheiroBase, inv.cartaoBase,
            inv.chequeBase, ?_, ?_, ?_⟩
          · rw [catIds_reparent]
            exact inv.catNodup
          · exact catFKOk_reparent _ _ _ inv.catFK
              (fun q hq => (Option.some_injective _ hq) ▸ hp)
          · exact catAcyclic_reparent_some _ inv.catNodup inv.catFK
              inv.catAcyc id p hchk
      · cases h
  · cases h

theorem storeInv_excluirCategoria (catId : Nat) (s s2 : Store)
    (h : excluirCategoria catId s = .ok s2) (inv : StoreInv s) :
    StoreInv s2 := by
  unfold excluirCategoria at h
  split at h
  · split at h
    · cases h
    · cases h
      refine ⟨inv.roleLe, inv.garcomUsuario, inv.caixaUsuario,
        inv.cozinhaUsuario, inv.gerenteUsuario, inv.pagPerConta,
        inv.pagNodup, inv.pagSpecOne, inv.dinheiroBase, inv.cartaoBase,
        inv.chequeBase, ?_, ?_, ?_⟩
      · exact inv.catNodup.sublist (catIds_filter_sublist _ _)
      · exact catFKOk_filter_descSet _ inv.catFK catId
      · exact catAcyclic_filter _ inv.catAcyc _
  · cases h

theorem storeInv_applyOp (o : Op) (s s2 : Store) (h : applyOp o s = .ok s2)
    (inv : StoreInv s) : StoreInv s2 := by
  cases o with
  | criarUsuario id nome login senha =>
      exact storeInv_criarUsuario id nome login senha s s2 h inv
  | especializar k uid rid => exact storeInv_especializar k uid rid s s2 h inv
  | criarCategoria id nome pai =>
      exact storeInv_criarCategoria id nome pai s s2 h inv
  | definirCategoriaPai id pai =>
      exact storeInv_definirCategoriaPai id pai s s2 h inv
  | pagar pid cid valor dataHora m d =>
      exact storeInv_pagar pid cid valor dataHora m d s s2 h inv
  | excluirGarcom uid => exact storeInv_excluirGarcom uid s s2 h inv
  | excluirConta cid => exact storeInv_excluirConta cid s s2 h inv
  | excluirCategoria catId => exact storeInv_excluirCategoria catId s s2 h inv
  | criarRestaurante id nome =>
      simp only [applyOp] at h
      unfold criarRestaurante at h
      repeat' split at h
      all_goals first
        | (cases h
           exact storeInv_congr s _ rfl rfl rfl rfl (fun u hu => hu) rfl rfl
             rfl rfl rfl inv)
        | cases h
  | criarMesa id numero rid gid =>
      simp only [applyOp] at h
      unfold criarMesa at h
      repeat' split at h
      all_goals first
        | (cases h
           exact storeInv_congr s _ rfl rfl rfl rfl (fun u hu => hu) rfl rfl
             rfl rfl rfl inv)
        | cases h
  | criarCliente id nome chegada =>
      simp only [applyOp] at h
      unfold criarCliente at h
      repeat' split at h
      all_goals first
        | (cases h
           exact storeInv_congr s _ rfl rfl rfl rfl (fun u hu => hu) rfl rfl
             rfl rfl rfl inv)
        | cases h
  | criarCardapio id gid =>
      simp only [applyOp] at h
      unfold criarCardapio at h
      repeat' split at h
      all_goals first
        | (cases h
           exact storeInv_congr s _ rfl rfl rfl rfl (fun u hu => hu) rfl rfl
             rfl rfl rfl inv)
        | cases h
  | criarItemCardapio id nome ing preco cardId catId =>
      simp only [applyOp] at h
      unfold criarItemCardapio at h
      repeat' split at h
      all_goals first
        | (cases h
           exact storeInv_congr s _ rfl rfl rfl rfl (fun u hu => hu) rfl rfl
             rfl rfl rfl inv)
        | cases h
  | criarConta id nome mid =>
      simp only [applyOp] at h
      unfold criarConta at h
      repeat' split at h
      all_goals first
        | (cases h
           exact storeInv_congr s _ rfl rfl rfl rfl (fun u hu => hu) rfl rfl
             rfl rfl rfl inv)
        | cases h
  | associarCaixa cid xid =>
      simp only [applyOp] at h
      unfold associarCaixa at h
      repeat' split at h
      all_goals first
        | (cases h
           exact storeInv_congr s _ rfl rfl rfl rfl (fun u hu => hu) rfl rfl
             rfl rfl rfl inv)
        | cases h
  | criarPedido id numero horario cid clid kid =>
      simp only [applyOp] at h
      unfold criarPedido at h
      repeat' split at h
      all_goals first
        | (cases h
           exact storeInv_congr s _ rfl rfl rfl rfl (fun u hu => hu) rfl rfl
             rfl rfl rfl inv)
        | cases h
  | criarItemPedido id quantidade pedId itemId =>
      simp only [applyOp] at h
      unfold criarItemPedido at h
      repeat' split at h
      all_goals first
        | (cases h
           exact storeInv_congr s _ rfl rfl rfl rfl (fun u hu => hu) rfl rfl
             rfl rfl rfl inv)
        | cases h
  | excluirItemCardapio iid =>
      simp only [applyOp] at h
      unfold excluirItemCardapio at h
      repeat' split at h
      all_goals first
        | (cases h
           exact storeInv_congr s _ rfl rfl rfl rfl (fun u hu => hu) rfl rfl
             rfl rfl rfl inv)
        | cases h
  | excluirRestaurante rid =>
      simp only [applyOp] at h
      unfold excluirRestaurante at h
      repeat' split at h
      all_goals first
        | (cases h
           exact storeInv_congr s _ rfl rfl rfl rfl (fun u hu => hu) rfl rfl
             rfl rfl rfl inv)
        | cases h
  | excluirMesa mid =>
      simp only [applyOp] at h
      unfold excluirMesa at h
      repeat' split at h
      all_goals first
        | (cases h
           exact storeInv_congr s _ rfl rfl rfl rfl (fun u hu => hu) rfl rfl
             rfl rfl rfl inv)
        | cases h
  | excluirCardapio cid =>
      simp only [applyOp] at h
      unfold excluirCardapio at h
      repeat' split at h
      all_goals first
        | (cases h
           exact storeInv_congr s _ rfl rfl rfl rfl (fun u hu => hu) rfl rfl
             rfl rfl rfl inv)
        | cases h
  | excluirPedido pid =>
      simp only [applyOp] at h
      unfold excluirPedido at h
      repeat' split at h
      all_goals first
        | (cases h
           exact storeInv_congr s _ rfl rfl rfl rfl (fun u hu => hu) rfl rfl
             rfl rfl rfl inv)
        | cases h

theorem storeInv_emptyStore : StoreInv emptyStore := by
  constructor
  · intro uid
    simp [roleCount, emptyStore]
  · intro g hg
    simp [emptyStore] at hg
  · intro x hx
    simp [emptyStore] at hx
  · intro x hx
    simp [emptyStore] at hx
  · intro x hx
    simp [emptyStore] at hx
  · intro cid
    simp [emptyStore]
  · simp [emptyStore]
  · intro pg hpg
    simp [emptyStore] at hpg
  · intro x hx
    simp [emptyStore] at hx
  · intro r hr
    simp [emptyStore] at hr
  · intro r hr
    simp [emptyStore] at hr
  · simp [catIds, emptyStore]
  · intro c hc
    simp [emptyStore] at hc
  · intro a htg
    obtain ⟨w, hw, _⟩ := (Relation.TransGen.head'_iff).mp htg
    obtain ⟨c, hc, _⟩ := hw
    simp [emptyStore] at hc

theorem storeInv_reachable (s : Store) (h : Reachable s) : StoreInv s := by
  unfold Reachable at h
  induction h with
  | refl => exact storeInv_emptyStore
  | tail _hsteps hstep ih =>
      obtain ⟨o, ho⟩ := hstep
      exact storeInv_applyOp o _ _ ho ih

theorem reachable_exec (o : Op) (s : Store) (h : Reachable s) :
    Reachable (exec o s) := by
  unfold exec
  cases ha : applyOp o s with
  | ok s2 => exact Relation.ReflTransGen.tail h ⟨o, ha⟩
  | error e => exact h

theorem reachable_execs_from (os : List Op) (s : Store) (h : Reachable s) :
    Reachable (execs os s) := by
  induction os generalizing s with
  | nil => exact h
  | cons o os ih => exact ih (exec o s) (reachable_exec o s h)

theorem reachable_sampleStore : Reachable sampleStore :=
  reachable_execs_from sampleOps emptyStore Relation.ReflTransGen.refl

theorem usuarioExists_of_hasRole (s : Store) (inv : StoreInv s) (uid : Nat)
    (hr : HasRole s uid) : UsuarioExists s uid := by
  unfold HasRole roleCount at hr
  by_cases h1 : 0 < s.garcons.countP (fun g => g.usuarioId == uid)
  · obtain ⟨g, hg, hge⟩ := List.countP_pos_iff.mp h1
    simp only [beq_iff_eq] at hge
    obtain ⟨u, hu, hue⟩ := inv.garcomUsuario g hg
    exact ⟨u, hu, by rw [hue, hge]⟩
  · by_cases h2 : 0 < s.caixas.countP (fun c => c == uid)
    · obtain ⟨x, hx, hxe⟩ := List.countP_pos_iff.mp h2
      simp only [beq_iff_eq] at hxe
      obtain ⟨u, hu, hue⟩ := inv.caixaUsuario x hx
      exact ⟨u, hu, by rw [hue, hxe]⟩
    · by_cases h3 : 0 < s.cozinhas.countP (fun c => c == uid)
      · obtain ⟨x, hx, hxe⟩ := List.countP_pos_iff.mp h3
        simp only [beq_iff_eq] at hxe
        obtain ⟨u, hu, hue⟩ := inv.cozinhaUsuario x hx
        exact ⟨u, hu, by rw [hue, hxe]⟩
      · by_cases h4 : 0 < s.gerentes.countP (fun c => c == uid)
        · obtain ⟨x, hx, hxe⟩ := List.countP_pos_iff.mp h4
          simp only [beq_iff_eq] at hxe
          obtain ⟨u, hu, hue⟩ := inv.gerenteUsuario x hx
          exact ⟨u, hu, by rw [hue, hxe]⟩
        · omega

theorem hasRole_persists (o : Op) (s s2 : Store) (uid : Nat)
    (h : applyOp o s = .ok s2) (hr : HasRole s uid)
    (hu2 : UsuarioExists s2 uid) : HasRole s2 uid := by
  cases o with
  | especializar k uid0 rid =>
      simp only [applyOp] at h
      unfold especializar at h
      repeat' split at h
      all_goals try cases h
      · unfold HasRole
        rw [roleCount_cons_garcom]
        unfold HasRole at hr
        omega
      · unfold HasRole
        rw [roleCount_cons_caixa]
        unfold HasRole at hr
        omega
      · unfold HasRole
        rw [roleCount_cons_cozinha]
        unfold HasRole at hr
        omega
      · unfold HasRole
        rw [roleCount_cons_gerente]
        unfold HasRole at hr
        omega
  | excluirGarcom uid0 =>
      simp only [applyOp] at h
      unfold excluirGarcom at h
      split at h
      · split at h
        · cases h
        · cases h
          by_cases he : uid = uid0
          · exfalso
            obtain ⟨u, hu, hue⟩ := hu2
            have hk := (List.mem_filter.mp hu).2
            simp only [decide_eq_true_iff] at hk
            exact hk (by rw [hue, he])
          · unfold HasRole roleCount at hr ⊢
            dsimp only
            have heq : (s.garcons.filter
                (fun g => ¬ g.usuarioId = uid0)).countP
                  (fun g => g.usuarioId == uid) =
                s.garcons.countP (fun g => g.usuarioId == uid) := by
              apply countP_filter_eq
              intro a _ha hpa
              simp only [beq_iff_eq] at hpa
              simp only [decide_eq_true_iff]
              rw [hpa]
              exact he
            omega
      · cases h
  | criarUsuario id nome login senha =>
      simp only [applyOp] at h
      unfold criarUsuario at h
      repeat' split at h
      all_goals first
        | (cases h
           exact hr)
        | cases h
  | criarRestaurante id nome =>
      simp only [applyOp] at h
      unfold criarRestaurante at h
      repeat' split at h
      all_goals first
        | (cases h
           exact hr)
        | cases h
  | criarMesa id numero rid gid =>
      simp only [applyOp] at h
      unfold criarMesa at h
      repeat' split at h
      all_goals first
        | (cases h
           exact hr)
        | cases h
  | criarCliente id nome chegada =>
      simp only [applyOp] at h
      unfold criarCliente at h
      repeat' split at h
      all_goals first
        | (cases h
           exact hr)
        | cases h
  | criarCardapio id gid =>
      simp only [applyOp] at h
      unfold criarCardapio at h
      repeat' split at h
      all_goals first
        | (cases h
           exact hr)
        | cases h
  | criarCategoria id nome pai =>
      simp only [applyOp] at h
      unfold criarCategoria at h
      repeat' split at h
      all_goals first
        | (cases h
           exact hr)
        | cases h
  | definirCategoriaPai id pai =>
      simp only [applyOp] at h
      unfold definirCategoriaPai at h
      repeat' split at h
      all_goals first
        | (cases h
           exact hr)
        | cases h
  | criarItemCardapio id nome ing preco cardId catId =>
      simp only [applyOp] at h
      unfold criarItemCardapio at h
      repeat' split at h
      all_goals first
        | (cases h
           exact hr)
        | cases h
  | criarConta id nome mid =>
      simp only [applyOp] at h
      unfold criarConta at h
      repeat' split at h
      all_goals first
        | (cases h
           exact hr)
        | cases h
  | associarCaixa cid xid =>
      simp only [applyOp] at h
      unfold associarCaixa at h
      repeat' split at h
      all_goals first
        | (cases h
           exact hr)
        | cases h
  | criarPedido id numero horario cid clid kid =>
      simp only [applyOp] at h
      unfold criarPedido at h
      repeat' split at h
      all_goals first
        | (cases h
           exact hr)
        | cases h
  | criarItemPedido id quantidade pedId itemId =>
      simp only [applyOp] at h
      unfold criarItemPedido at h
      repeat' split at h
      all_goals first
        | (cases h
           exact hr)
        | cases h
  | pagar pid cid valor dataHora m d =>
      simp only [applyOp] at h
      unfold pagar at h
      repeat' split at h
      all_goals first
        | (cases h
           exact hr)
        | cases h
  | excluirItemCardapio iid =>
      simp only [applyOp] at h
      unfold excluirItemCardapio at h
      repeat' split at h
      all_goals first
        | (cases h
           exact hr)
        | cases h
  | excluirRestaurante rid =>
      simp only [applyOp] at h
      unfold excluirRestaurante at h
      repeat' split at h
      all_goals first
        | (cases h
           exact hr)
        | cases h
  | excluirMesa mid =>
      simp only [applyOp] at h
      unfold excluirMesa at h
      repeat' split at h
      all_goals first
        | (cases h
           exact hr)
        | cases h
  | excluirCardapio cid =>
      simp only [applyOp] at h
      unfold excluirCardapio at h
      repeat' split at h
      all_goals first
        | (cases h
           exact hr)
        | cases h
  | excluirCategoria catId =>
      simp only [applyOp] at h
      unfold excluirCategoria at h
      repeat' split at h
      all_goals first
        | (cases h
           exact hr)
        | cases h
  | excluirConta cid =>
      simp only [applyOp] at h
      unfold excluirConta at h
      repeat' split at h
      all_goals first
        | (cases h
           exact hr)
        | cases h
  | excluirPedido pid =>
      simp only [applyOp] at h
      unfold excluirPedido at h
      repeat' split at h
      all_goals first
        | (cases h
           exact hr)
        | cases h

/-! ### The claims -/

/-- C1: In every reachable store each Usuario row has at most one
role-specialization row among Garcom/Caixa/Cozinha/Gerente (never two of
different kinds); a specialized Usuario keeps its role row for as long as the
Usuario row exists (never zero after specialization); and any attempt to add
a role record for an already-specialized Usuario — in particular one of a
second, different kind — is rejected with a conflict error and changes
nothing. -/
theorem C1_role_specialization_disjoint (s : Store) (hre : Reachable s) :
    (∀ uid, roleCount s uid ≤ 1) ∧
    (∀ s2, StoreStep s s2 → ∀ uid, HasRole s uid → UsuarioExists s2 uid →
      HasRole s2 uid) ∧
    (∀ k uid rid, HasRole s uid →
      applyOp (.especializar k uid rid) s =
        .error (.conflict "role-exists") ∧
      exec (.especializar k uid rid) s = s) := by
  have inv := storeInv_reachable s hre
  refine ⟨inv.roleLe, ?_, ?_⟩
  · rintro s2 ⟨o, ho⟩ uid hr hu2
    exact hasRole_persists o s s2 uid ho hr hu2
  · intro k uid rid hr
    have hu : ∃ u ∈ s.usuarios, u.id = uid :=
      usuarioExists_of_hasRole s inv uid hr
    have hne : ¬ roleCount s uid = 0 := by
      unfold HasRole at hr
      omega
    have herr : applyOp (.especializar k uid rid) s =
        .error (.conflict "role-exists") := by
      simp only [applyOp]
      unfold especializar
      simp only [dif_pos hu, dif_neg hne]
    exact ⟨herr, by unfold exec; rw [herr]⟩

/-- Witness for C1: the sample store is reachable; usuario 1 is a garcom, and
the attempt to additionally specialize it as a caixa is rejected. -/
theorem C1_witness :
    roleCount sampleStore 1 ≤ 1 ∧
    applyOp (.especializar Papel.caixa 1 0) sampleStore =
      .error (.conflict "role-exists") := by
  have h := C1_role_specialization_disjoint sampleStore reachable_sampleStore
  exact ⟨h.1 1, (h.2.2 Papel.caixa 1 0 (by unfold HasRole; decide)).1⟩

/-- C2: In every reachable store every Conta has at most one Pagamento row,
and `pagar` on a Conta that already has a Pagamento always fails with the
already-paid conflict, creating nothing. -/
theorem C2_one_payment_per_bill (s : Store) (hre : Reachable s) :
    (∀ cid, s.pagamentos.countP (fun pg => pg.contaId == cid) ≤ 1) ∧
    (∀ pid cid valor dataHora m d, ContaExists s cid → HasPagamento s cid →
      applyOp (.pagar pid cid valor dataHora m d) s =
        .error (.conflict "already-paid") ∧
      exec (.pagar pid cid valor dataHora m d) s = s) := by
  have inv := storeInv_reachable s hre
  refine ⟨inv.pagPerConta, ?_⟩
  intro pid cid valor dataHora m d hc hp
  have hc2 : ∃ c ∈ s.contas, c.id = cid := hc
  have hp2 : ∃ pg ∈ s.pagamentos, pg.contaId = cid := hp
  have herr : applyOp (.pagar pid cid valor dataHora m d) s =
      .error (.conflict "already-paid") := by
    simp only [applyOp]
    unfold pagar
    simp only [dif_pos hc2, dif_pos hp2]
  exact ⟨herr, by unfold exec; rw [herr]⟩

/-- Witness for C2: conta 70 of the sample store is already paid, and a
second `pagar` on it fails with the already-paid conflict. -/
theorem C2_witness :
    sampleStore.pagamentos.countP (fun pg => pg.contaId == 70) ≤ 1 ∧
    applyOp (.pagar 101 70 3 12 Metodo.dinheiro ⟨none, none⟩) sampleStore =
      .error (.conflict "already-paid") := by
  have h := C2_one_payment_per_bill sampleStore reachable_sampleStore
  exact ⟨h.1 70,
    (h.2 101 70 3 12 Metodo.dinheiro ⟨none, none⟩ (by unfold ContaExists; decide)
      (by unfold HasPagamento; decide)).1⟩

/-- C4: Deleting a Garcom referenced by any Mesa, or an ItemCardapio
referenced by any ItemPedido, always fails with an integrity error
(on_delete=PROTECT in models.py) and leaves the store unchanged. -/
theorem C4_protected_staff_and_item (s : Store) :
    (∀ uid, (∃ g ∈ s.garcons, g.usuarioId = uid) →
      (∃ m ∈ s.mesas, m.garcomId = uid) →
      applyOp (.excluirGarcom uid) s = .error (.integrity "staff-in-use") ∧
      exec (.excluirGarcom uid) s = s) ∧
    (∀ iid, (∃ i ∈ s.itensCardapio, i.id = iid) →
      (∃ ip ∈ s.itensPedido, ip.itemCardapioId = iid) →
      applyOp (.excluirItemCardapio iid) s =
        .error (.integrity "item-in-use") ∧
      exec (.excluirItemCardapio iid) s = s) := by
  constructor
  · intro uid hg hm
    have herr : applyOp (.excluirGarcom uid) s =
        .error (.integrity "staff-in-use") := by
      simp only [applyOp]
      unfold excluirGarcom
      simp only [dif_pos hg, dif_pos hm]
    exact ⟨herr, by unfold exec; rw [herr]⟩
  · intro iid hi hip
    have herr : applyOp (.excluirItemCardapio iid) s =
        .error (.integrity "item-in-use") := by
      simp only [applyOp]
      unfold excluirItemCardapio
      simp only [dif_pos hi, dif_pos hip]
    exact ⟨herr, by unfold exec; rw [herr]⟩

/-- Witness for C4: garcom 1 serves mesa 20 and item 60 is on order line 90
in the sample store, so both deletes fail and change nothing. -/
theorem C4_witness :
    applyOp (.excluirGarcom 1) sampleStore =
      .error (.integrity "staff-in-use") ∧
    exec (.excluirGarcom 1) sampleStore = sampleStore ∧
    applyOp (.excluirItemCardapio 60) sampleStore =
      .error (.integrity "item-in-use") := by
  have h := C4_protected_staff_and_item sampleStore
  obtain ⟨h1, h2⟩ := h.1 1 (by decide) (by decide)
  exact ⟨h1, h2, (h.2 60 (by decide) (by decide)).1⟩

/-- C3: In every reachable store the categoria parent-chain is acyclic and
finite (the ancestor walk of any node ends within the table size); a
reparenting that would make a categoria its own ancestor is rejected with the
category-cycle validation error before any write; and a categoria insert
always leaves the tree acyclic. -/
theorem C3_category_cycle_rejected (s : Store) (hre : Reachable s) :
    CatAcyclic s.categorias ∧
    (∀ a, orbitN s.categorias (s.categorias.length + 1) a = none) ∧
    (∀ cid p, (∃ c ∈ s.categorias, c.id = cid) → p ∈ catIds s.categorias →
      Relation.TransGen (PStep (reparent s.categorias cid (some p))) cid cid →
      applyOp (.definirCategoriaPai cid (some p)) s =
        .error (.validationErr "category-cycle") ∧
      exec (.definirCategoriaPai cid (some p)) s = s) ∧
    (∀ id nome pai s2, applyOp (.criarCategoria id nome pai) s = .ok s2 →
      CatAcyclic s2.categorias) := by
  have inv := storeInv_reachable s hre
  refine ⟨inv.catAcyc, ?_, ?_, ?_⟩
  · intro a
    cases ho : orbitN s.categorias (s.categorias.length + 1) a with
    | none => rfl
    | some c =>
        exfalso
        have := orbitN_le_length s.categorias inv.catFK inv.catAcyc
          (s.categorias.length + 1) a c ho
        omega
  · intro cid p hcid hp hcyc
    have hchk : cid ∈ chainUp s.categorias s.categorias.length p := by
      by_contra hchk
      exact catAcyclic_reparent_some s.categorias inv.catNodup inv.catFK
        inv.catAcyc cid p hchk cid hcyc
    have herr : applyOp (.definirCategoriaPai cid (some p)) s =
        .error (.validationErr "category-cycle") := by
      simp only [applyOp]
      unfold definirCategoriaPai
      simp only [dif_pos hcid]
      simp only [dif_pos hp, dif_pos hchk]
    exact ⟨herr, by unfold exec; rw [herr]⟩
  · intro id nome pai s2 h
    exact (storeInv_criarCategoria id nome pai s s2 h inv).catAcyc

/-- Witness for C3: in the sample store the ancestor walk from categoria 52
terminates, and making 52 (a descendant of 50) the new parent of 50 — which
would put 50 on its own ancestor chain — is rejected. -/
theorem C3_witness :
    orbitN sampleStore.categorias (sampleStore.categorias.length + 1) 52 =
      none ∧
    applyOp (.definirCategoriaPai 50 (some 52)) sampleStore =
      .error (.validationErr "category-cycle") := by
  have h := C3_category_cycle_rejected sampleStore reachable_sampleStore
  have step1 : PStep (reparent sampleStore.categorias 50 (some 52)) 50 52 :=
    ⟨⟨50, "cat", some 52⟩, by decide, rfl, rfl⟩
  have step2 : PStep (reparent sampleStore.categorias 50 (some 52)) 52 51 :=
    ⟨⟨52, "subsub", some 51⟩, by decide, rfl, rfl⟩
  have step3 : PStep (reparent sampleStore.categorias 50 (some 52)) 51 50 :=
    ⟨⟨51, "sub", some 50⟩, by decide, rfl, rfl⟩
  have hcyc : Relation.TransGen
      (PStep (reparent sampleStore.categorias 50 (some 52))) 50 50 :=
    Relation.TransGen.head step1
      (Relation.TransGen.head step2 (Relation.TransGen.single step3))
  exact ⟨h.2.1 52, (h.2.2.1 50 52 (by decide) (by decide) hcyc).1⟩

/-- C5: Each successful delete of a Restaurante, Cardapio, Categoria, Conta
or Pedido removes exactly the rows of the cascade rules — Restaurante→Mesa,
Categoria→subcategoria/ItemCardapio (the full descendant set),
Cardapio→ItemCardapio, Conta→Pedido→ItemPedido, Conta→Pagamento together
with its specialization rows and many-to-many links — and leaves every other
table of the store unchanged. -/
theorem C5_cascade_exactness (s : Store) :
    (∀ rid s2, applyOp (.excluirRestaurante rid) s = .ok s2 →
      (∀ r : Restaurante, r ∈ s2.restaurantes ↔
        r ∈ s.restaurantes ∧ ¬ r.id = rid) ∧
      (∀ m : Mesa, m ∈ s2.mesas ↔ m ∈ s.mesas ∧ ¬ m.restauranteId = rid) ∧
      s2.usuarios = s.usuarios ∧ s2.garcons = s.garcons ∧
      s2.caixas = s.caixas ∧ s2.cozinhas = s.cozinhas ∧
      s2.gerentes = s.gerentes ∧ s2.clientes = s.clientes ∧
      s2.cardapios = s.cardapios ∧ s2.categorias = s.categorias ∧
      s2.itensCardapio = s.itensCardapio ∧ s2.contas = s.contas ∧
      s2.contaCaixas = s.contaCaixas ∧ s2.pedidos = s.pedidos ∧
      s2.itensPedido = s.itensPedido ∧ s2.pagamentos = s.pagamentos ∧
      s2.pagamentoDinheiro = s.pagamentoDinheiro ∧
      s2.pagamentoCartao = s.pagamentoCartao ∧
      s2.pagamentoCheque = s.pagamentoCheque) ∧
    (∀ cid s2, applyOp (.excluirCardapio cid) s = .ok s2 →
      (∀ c : Cardapio, c ∈ s2.cardapios ↔ c ∈ s.cardapios ∧ ¬ c.id = cid) ∧
      (∀ i : ItemCardapio, i ∈ s2.itensCardapio ↔
        i ∈ s.itensCardapio ∧ ¬ i.cardapioId = cid) ∧
      s2.usuarios = s.usuarios ∧ s2.garcons = s.garcons ∧
      s2.caixas = s.caixas ∧ s2.cozinhas = s.cozinhas ∧
      s2.gerentes = s.gerentes ∧ s2.restaurantes = s.restaurantes ∧
      s2.mesas = s.mesas ∧ s2.clientes = s.clientes ∧
      s2.categorias = s.categorias ∧ s2.contas = s.contas ∧
      s2.contaCaixas = s.contaCaixas ∧ s2.pedidos = s.pedidos ∧
      s2.itensPedido = s.itensPedido ∧ s2.pagamentos = s.pagamentos ∧
      s2.pagamentoDinheiro = s.pagamentoDinheiro ∧
      s2.pagamentoCartao = s.pagamentoCartao ∧
      s2.pagamentoCheque = s.pagamentoCheque) ∧
    (∀ catId s2, applyOp (.excluirCategoria catId) s = .ok s2 →
      (∀ x, x ∈ descSet s.categorias catId ↔ (x = catId ∨
        Relation.TransGen (fun a b => PStep s.categorias b a) catId x)) ∧
      (∀ c : Categoria, c ∈ s2.categorias ↔
        c ∈ s.categorias ∧ ¬ c.id ∈ descSet s.categorias catId) ∧
      (∀ i : ItemCardapio, i ∈ s2.itensCardapio ↔
        i ∈ s.itensCardapio ∧ ¬ i.categoriaId ∈ descSet s.categorias catId) ∧
      s2.usuarios = s.usuarios ∧ s2.garcons = s.garcons ∧
      s2.caixas = s.caixas ∧ s2.cozinhas = s.cozinhas ∧
      s2.gerentes = s.gerentes ∧ s2.restaurantes = s.restaurantes ∧
      s2.mesas = s.mesas ∧ s2.clientes = s.clientes ∧
      s2.cardapios = s.cardapios ∧ s2.contas = s.contas ∧
      s2.contaCaixas = s.contaCaixas ∧ s2.pedidos = s.pedidos ∧
      s2.itensPedido = s.itensPedido ∧ s2.pagamentos = s.pagamentos ∧
      s2.pagamentoDinheiro = s.pagamentoDinheiro ∧
      s2.pagamentoCartao = s.pagamentoCartao ∧
      s2.pagamentoCheque = s.pagamentoCheque) ∧
    (∀ cid s2, applyOp (.excluirConta cid) s = .ok s2 →
      (∀ c : Conta, c ∈ s2.contas ↔ c ∈ s.contas ∧ ¬ c.id = cid) ∧
      (∀ p : Pedido, p ∈ s2.pedidos ↔ p ∈ s.pedidos ∧ ¬ p.contaId = cid) ∧
      (∀ ip : ItemPedido, ip ∈ s2.itensPedido ↔ ip ∈ s.itensPedido ∧
        ¬ ∃ p ∈ s.pedidos, p.id = ip.pedidoId ∧ p.contaId = cid) ∧
      (∀ pg : Pagamento, pg ∈ s2.pagamentos ↔
        pg ∈ s.pagamentos ∧ ¬ pg.contaId = cid) ∧
      (∀ x : Nat, x ∈ s2.pagamentoDinheiro ↔ x ∈ s.pagamentoDinheiro ∧
        ¬ ∃ pg ∈ s.pagamentos, pg.id = x ∧ pg.contaId = cid) ∧
      (∀ r : PagamentoCartao, r ∈ s2.pagamentoCartao ↔
        r ∈ s.pagamentoCartao ∧
        ¬ ∃ pg ∈ s.pagamentos, pg.id = r.pagamentoId ∧ pg.contaId = cid) ∧
      (∀ r : PagamentoCheque, r ∈ s2.pagamentoCheque ↔
        r ∈ s.pagamentoCheque ∧
        ¬ ∃ pg ∈ s.pagamentos, pg.id = r.pagamentoId ∧ pg.contaId = cid) ∧
      (∀ x : Nat × Nat, x ∈ s2.contaCaixas ↔
        x ∈ s.contaCaixas ∧ ¬ x.1 = cid) ∧
      s2.usuarios = s.usuarios ∧ s2.garcons = s.garcons ∧
      s2.caixas = s.caixas ∧ s2.cozinhas = s.cozinhas ∧
      s2.gerentes = s.gerentes ∧ s2.restaurantes = s.restaurantes ∧
      s2.mesas = s.mesas ∧ s2.clientes = s.clientes ∧
      s2.cardapios = s.cardapios ∧ s2.categorias = s.categorias ∧
      s2.itensCardapio = s.itensCardapio) ∧
    (∀ pid s2, applyOp (.excluirPedido pid) s = .ok s2 →
      (∀ p : Pedido, p ∈ s2.pedidos ↔ p ∈ s.pedidos ∧ ¬ p.id = pid) ∧
      (∀ ip : ItemPedido, ip ∈ s2.itensPedido ↔
        ip ∈ s.itensPedido ∧ ¬ ip.pedidoId = pid) ∧
      s2.usuarios = s.usuarios ∧ s2.garcons = s.garcons ∧
      s2.caixas = s.caixas ∧ s2.cozinhas = s.cozinhas ∧
      s2.gerentes = s.gerentes ∧ s2.restaurantes = s.restaurantes ∧
      s2.mesas = s.mesas ∧ s2.clientes = s.clientes ∧
      s2.cardapios = s.cardapios ∧ s2.categorias = s.categorias ∧
      s2.itensCardapio = s.itensCardapio ∧ s2.contas = s.contas ∧
      s2.contaCaixas = s.contaCaixas ∧ s2.pagamentos = s.pagamentos ∧
      s2.pagamentoDinheiro = s.pagamentoDinheiro ∧
      s2.pagamentoCartao = s.pagamentoCartao ∧
      s2.pagamentoCheque = s.pagamentoCheque) := by
  refine ⟨?_, ?_, ?_, ?_, ?_⟩
  · intro rid s2 h
    simp only [applyOp] at h
    unfold excluirRestaurante at h
    split at h
    · split at h
      · cases h
      · split at h
        · cases h
        · cases h
          refine ⟨?_, ?_, rfl, rfl, rfl, rfl, rfl, rfl, rfl, rfl, rfl, rfl,
            rfl, rfl, rfl, rfl, rfl, rfl, rfl⟩
          · intro r
            simp only [List.mem_filter, decide_eq_true_iff]
          · intro m
            simp only [List.mem_filter, decide_eq_true_iff]
    · cases h
  · intro cid s2 h
    simp only [applyOp] at h
    unfold excluirCardapio at h
    split at h
    · split at h
      · cases h
      · cases h
        refine ⟨?_, ?_, rfl, rfl, rfl, rfl, rfl, rfl, rfl, rfl, rfl, rfl,
          rfl, rfl, rfl, rfl, rfl, rfl, rfl⟩
        · intro c
          simp only [List.mem_filter, decide_eq_true_iff]
        · intro i
          simp only [List.mem_filter, decide_eq_true_iff]
    · cases h
  · intro catId s2 h
    simp only [applyOp] at h
    unfold excluirCategoria at h
    split at h
    · split at h
      · cases h
      · cases h
        refine ⟨fun x => mem_descSet_iff s.categorias catId x, ?_, ?_, rfl,
          rfl, rfl, rfl, rfl, rfl, rfl, rfl, rfl, rfl, rfl, rfl, rfl, rfl,
          rfl, rfl, rfl⟩
        · intro c
          simp only [List.mem_filter, decide_eq_true_iff]
        · intro i
          simp only [List.mem_filter, decide_eq_true_iff]
    · cases h
  · intro cid s2 h
    simp only [applyOp] at h
    unfold excluirConta at h
    split at h
    · cases h
      refine ⟨?_, ?_, ?_, ?_, ?_, ?_, ?_, ?_, rfl, rfl, rfl, rfl, rfl, rfl,
        rfl, rfl, rfl, rfl, rfl⟩
      · intro c
        simp only [List.mem_filter, decide_eq_true_iff]
      · intro p
        simp only [List.mem_filter, decide_eq_true_iff]
      · intro ip
        simp only [List.mem_filter, decide_eq_true_iff]
      · intro pg
        simp only [List.mem_filter, decide_eq_true_iff]
      · intro x
        simp only [List.mem_filter, decide_eq_true_iff]
      · intro r
        simp only [List.mem_filter, decide_eq_true_iff]
      · intro r
        simp only [List.mem_filter, decide_eq_true_iff]
      · intro x
        simp only [List.mem_filter, decide_eq_true_iff]
    · cases h
  · intro pid s2 h
    simp only [applyOp] at h
    unfold excluirPedido at h
    split at h
    · cases h
      refine ⟨?_, ?_, rfl, rfl, rfl, rfl, rfl, rfl, rfl, rfl, rfl, rfl, rfl,
        rfl, rfl, rfl, rfl, rfl, rfl⟩
      · intro p
        simp only [List.mem_filter, decide_eq_true_iff]
      · intro ip
        simp only [List.mem_filter, decide_eq_true_iff]
    · cases h

/-- Witness for C5: the five cascade deletes evaluated on the sample store
(restaurante 12, cardapio 41, categoria 51, conta 70, pedido 80 all delete
successfully). -/
theorem C5_witness :
    (∀ r : Restaurante,
      r ∈ (exec (.excluirRestaurante 12) sampleStore).restaurantes ↔
      r ∈ sampleStore.restaurantes ∧ ¬ r.id = 12) ∧
    (∀ c : Cardapio, c ∈ (exec (.excluirCardapio 41) sampleStore).cardapios ↔
      c ∈ sampleStore.cardapios ∧ ¬ c.id = 41) ∧
    (∀ c : Categoria,
      c ∈ (exec (.excluirCategoria 51) sampleStore).categorias ↔
      c ∈ sampleStore.categorias ∧
        ¬ c.id ∈ descSet sampleStore.categorias 51) ∧
    (∀ c : Conta, c ∈ (exec (.excluirConta 70) sampleStore).contas ↔
      c ∈ sampleStore.contas ∧ ¬ c.id = 70) ∧
    (∀ p : Pedido, p ∈ (exec (.excluirPedido 80) sampleStore).pedidos ↔
      p ∈ sampleStore.pedidos ∧ ¬ p.id = 80) := by
  have h := C5_cascade_exactness sampleStore
  refine ⟨(h.1 12 _ ?_).1, (h.2.1 41 _ ?_).1, (h.2.2.1 51 _ ?_).2.1,
    (h.2.2.2.1 70 _ ?_).1, (h.2.2.2.2 80 _ ?_).1⟩ <;> decide

/-- C6 counterexample: in the sample store mesa 20 is referenced by contas,
and deleting it does NOT succeed — `Conta.mesa` is on_delete=PROTECT in
models.py (lines 162-166), so the deletion is blocked instead of cascading to
the mesa's contas as the claim asserts. -/
theorem C6_counterexample :
    (∃ c ∈ sampleStore.contas, c.mesaId = 20) ∧
    applyOp (.excluirMesa 20) sampleStore =
      .error (.integrity "table-in-use") ∧
    ∀ s2 : Store, ¬ applyOp (.excluirMesa 20) sampleStore = .ok s2 := by
  refine ⟨by decide, by decide, ?_⟩
  intro s2 hok
  rw [show applyOp (.excluirMesa 20) sampleStore =
    .error (.integrity "table-in-use") from by decide] at hok
  cases hok

/-- C6 (amended): deleting a Mesa referenced by any Conta fails with an
integrity error and leaves the store unchanged (Mesa→Conta is protected, not
cascaded); a Mesa with no Contas is deleted alone, with the conta table
untouched. -/
theorem C6_mesa_delete_protected (s : Store) :
    (∀ mid, (∃ m ∈ s.mesas, m.id = mid) → (∃ c ∈ s.contas, c.mesaId = mid) →
      applyOp (.excluirMesa mid) s = .error (.integrity "table-in-use") ∧
      exec (.excluirMesa mid) s = s) ∧
    (∀ mid s2, applyOp (.excluirMesa mid) s = .ok s2 →
      (¬ ∃ c ∈ s.contas, c.mesaId = mid) ∧
      (∀ m : Mesa, m ∈ s2.mesas ↔ m ∈ s.mesas ∧ ¬ m.id = mid) ∧
      s2.contas = s.contas) := by
  constructor
  · intro mid hm hc
    have herr : applyOp (.excluirMesa mid) s =
        .error (.integrity "table-in-use") := by
      simp only [applyOp]
      unfold excluirMesa
      simp only [dif_pos hm, dif_pos hc]
    exact ⟨herr, by unfold exec; rw [herr]⟩
  · intro mid s2 h
    simp only [applyOp] at h
    unfold excluirMesa at h
    split at h
    · split at h
      · cases h
      · rename_i hnc
        cases h
        refine ⟨hnc, ?_, rfl⟩
        intro m
        simp only [List.mem_filter, decide_eq_true_iff]
    · cases h

/-- Witness for the amended C6: mesa 20 (with contas) is protected, mesa 21
(without contas) deletes. -/
theorem C6_witness :
    applyOp (.excluirMesa 20) sampleStore =
      .error (.integrity "table-in-use") ∧
    exec (.excluirMesa 20) sampleStore = sampleStore ∧
    (∀ m : Mesa, m ∈ (exec (.excluirMesa 21) sampleStore).mesas ↔
      m ∈ sampleStore.mesas ∧ ¬ m.id = 21) := by
  have h := C6_mesa_delete_protected sampleStore
  obtain ⟨h1, h2⟩ := h.1 20 (by decide) (by decide)
  exact ⟨h1, h2, (h.2 21 _ (by decide)).2.1⟩

/-- C7: creating a Mesa whose Garcom belongs to a different Restaurante is
rejected with the server-restaurant-mismatch validation error and creates
nothing; a Mesa is only created when its Garcom already belongs to the same
Restaurante. -/
theorem C7_server_restaurant_mismatch (s : Store) :
    (∀ id (numero : Int) rid gid, (∃ r ∈ s.restaurantes, r.id = rid) →
      (∃ g ∈ s.garcons, g.usuarioId = gid) →
      (∀ g ∈ s.garcons, g.usuarioId = gid → ¬ g.restauranteId = rid) →
      applyOp (.criarMesa id numero rid gid) s =
        .error (.validationErr "server-restaurant-mismatch") ∧
      exec (.criarMesa id numero rid gid) s = s) ∧
    (∀ id (numero : Int) rid gid s2,
      applyOp (.criarMesa id numero rid gid) s = .ok s2 →
      (∃ g ∈ s.garcons, g.usuarioId = gid ∧ g.restauranteId = rid) ∧
      s2.mesas = ⟨id, numero, true, rid, gid⟩ :: s.mesas ∧
      s2.contas = s.contas) := by
  constructor
  · intro id numero rid gid hr hg hall
    have hno : ¬ ∃ g ∈ s.garcons,
        g.usuarioId = gid ∧ g.restauranteId = rid := by
      rintro ⟨g, hgm, hgid, hgrid⟩
      exact hall g hgm hgid hgrid
    have herr : applyOp (.criarMesa id numero rid gid) s =
        .error (.validationErr "server-restaurant-mismatch") := by
      simp only [applyOp]
      unfold criarMesa
      simp only [dif_pos hr, dif_pos hg, dif_neg hno]
    exact ⟨herr, by unfold exec; rw [herr]⟩
  · intro id numero rid gid s2 h
    simp only [applyOp] at h
    unfold criarMesa at h
    split at h
    · split at h
      · split at h
        · rename_i hmatch
          split at h
          · cases h
          · cases h
            exact ⟨hmatch, rfl, rfl⟩
        · cases h
      · cases h
    · cases h

/-- Witness for C7: garcom 1 works at restaurante 10, so a mesa for it at
restaurante 11 is rejected, while one at restaurante 10 is created. -/
theorem C7_witness :
    applyOp (.criarMesa 22 5 11 1) sampleStore =
      .error (.validationErr "server-restaurant-mismatch") ∧
    (exec (.criarMesa 23 6 10 1) sampleStore).mesas =
      ⟨23, 6, true, 10, 1⟩ :: sampleStore.mesas := by
  have h := C7_server_restaurant_mismatch sampleStore
  refine ⟨(h.1 22 5 11 1 (by decide) (by decide) (by decide)).1, ?_⟩
  exact (h.2 23 6 10 1 _ (by decide)).2.1

/-- C8: an OrderLine with a non-positive quantity is always rejected with the
non-positive-quantity validation error, creating nothing; a successful
creation implies quantity > 0 and existing Pedido and ItemCardapio rows. -/
theorem C8_nonpositive_quantity (s : Store) :
    (∀ id (q : Int) pedId itemId, q ≤ 0 →
      applyOp (.criarItemPedido id q pedId itemId) s =
        .error (.validationErr "non-positive-quantity") ∧
      exec (.criarItemPedido id q pedId itemId) s = s) ∧
    (∀ id (q : Int) pedId itemId s2,
      applyOp (.criarItemPedido id q pedId itemId) s = .ok s2 →
      0 < q ∧ (∃ p ∈ s.pedidos, p.id = pedId) ∧
      (∃ i ∈ s.itensCardapio, i.id = itemId) ∧
      s2.itensPedido = ⟨id, q, pedId, itemId⟩ :: s.itensPedido) := by
  constructor
  · intro id q pedId itemId hq
    have herr : applyOp (.criarItemPedido id q pedId itemId) s =
        .error (.validationErr "non-positive-quantity") := by
      simp only [applyOp]
      unfold criarItemPedido
      simp only [dif_pos hq]
    exact ⟨herr, by unfold exec; rw [herr]⟩
  · intro id q pedId itemId s2 h
    simp only [applyOp] at h
    unfold criarItemPedido at h
    split at h
    · cases h
    · rename_i hq
      split at h
      · rename_i hped
        split at h
        · rename_i hitem
          split at h
          · cases h
          · cases h
            exact ⟨by omega, hped, hitem, rfl⟩
        · cases h
      · cases h

/-- Witness for C8: a zero quantity is rejected, a positive one is stored. -/
theorem C8_witness :
    applyOp (.criarItemPedido 91 0 80 60) sampleStore =
      .error (.validationErr "non-positive-quantity") ∧
    (exec (.criarItemPedido 91 3 80 60) sampleStore).itensPedido =
      ⟨91, 3, 80, 60⟩ :: sampleStore.itensPedido := by
  have h := C8_nonpositive_quantity sampleStore
  refine ⟨(h.1 91 0 80 60 (by decide)).1, ?_⟩
  exact (h.2 91 3 80 60 _ (by decide)).2.2.2

/-- C9: in every reachable store each Pagamento has exactly one
specialization row among dinheiro/cartao/cheque; a pay request whose details
do not match its method is rejected with the method-detail-mismatch
validation error and creates nothing; and a successful pay has consistent
method and details and creates a Pagamento with exactly one specialization
row. -/
theorem C9_payment_method_specialization (s : Store) (hre : Reachable s) :
    (∀ pg ∈ s.pagamentos, specCount s pg.id = 1) ∧
    (∀ pid cid valor dataHora m d, ContaExists s cid →
      ¬ HasPagamento s cid → ¬ Consistente m d →
      applyOp (.pagar pid cid valor dataHora m d) s =
        .error (.validationErr "method-detail-mismatch") ∧
      exec (.pagar pid cid valor dataHora m d) s = s) ∧
    (∀ pid cid valor dataHora m d s2,
      applyOp (.pagar pid cid valor dataHora m d) s = .ok s2 →
      Consistente m d ∧ specCount s2 pid = 1 ∧
      ∃ pg ∈ s2.pagamentos, pg.id = pid ∧ pg.contaId = cid ∧
        pg.valor = valor) := by
  have inv := storeInv_reachable s hre
  refine ⟨inv.pagSpecOne, ?_, ?_⟩
  · intro pid cid valor dataHora m d hc hnp hcons
    have hc2 : ∃ c ∈ s.contas, c.id = cid := hc
    have hnp2 : ¬ ∃ pg ∈ s.pagamentos, pg.contaId = cid := hnp
    have herr : applyOp (.pagar pid cid valor dataHora m d) s =
        .error (.validationErr "method-detail-mismatch") := by
      simp only [applyOp]
      unfold pagar
      simp only [dif_pos hc2, dif_neg hnp2]
      rcases d with ⟨t, c⟩
      cases m <;> cases t <;> cases c <;>
        first
          | rfl
          | exact absurd ⟨rfl, rfl⟩ hcons
    exact ⟨herr, by unfold exec; rw [herr]⟩
  · intro pid cid valor dataHora m d s2 h
    have hinv2 := storeInv_applyOp (.pagar pid cid valor dataHora m d) s s2
      h inv
    simp only [applyOp] at h
    unfold pagar at h
    split at h
    · split at h
      · cases h
      · split at h
        · split at h
          · cases h
          · cases h
            exact ⟨⟨rfl, rfl⟩,
              hinv2.pagSpecOne ⟨pid, cid, valor, dataHora⟩
                (List.mem_cons_self _ _),
              ⟨pid, cid, valor, dataHora⟩, List.mem_cons_self _ _,
              rfl, rfl, rfl⟩
        · split at h
          · cases h
          · cases h
            exact ⟨⟨rfl, rfl⟩,
              hinv2.pagSpecOne ⟨pid, cid, valor, dataHora⟩
                (List.mem_cons_self _ _),
              ⟨pid, cid, valor, dataHora⟩, List.mem_cons_self _ _,
              rfl, rfl, rfl⟩
        · split at h
          · cases h
          · cases h
            exact ⟨⟨rfl, rfl⟩,
              hinv2.pagSpecOne ⟨pid, cid, valor, dataHora⟩
                (List.mem_cons_self _ _),
              ⟨pid, cid, valor, dataHora⟩, List.mem_cons_self _ _,
              rfl, rfl, rfl⟩
        · cases h
    · cases h

/-- Witness for C9: the sample store's payment 100 has exactly one
specialization row, and paying unpaid conta 71 by card without a transaction
number is rejected. -/
theorem C9_witness :
    specCount sampleStore 100 = 1 ∧
    applyOp (.pagar 101 71 5 12 Metodo.cartao ⟨none, none⟩) sampleStore =
      .error (.validationErr "method-detail-mismatch") := by
  have h := C9_payment_method_specialization sampleStore reachable_sampleStore
  refine ⟨h.1 ⟨100, 70, -5, 11⟩ (by decide), ?_⟩
  exact (h.2.1 101 71 5 12 Metodo.cartao ⟨none, none⟩
    (by unfold ContaExists; decide) (by unfold HasPagamento; decide)
    (fun hc => absurd hc.1 (by decide))).1

/-- C10: the model layer performs no validation of the payment amount: for
every amount, zero and negative included, paying a Conta that has no
Pagamento yet succeeds (`valor` is an unchecked FloatField in models.py line
242), and the Conta is thereafter settled by the mere presence of the
Pagamento row. -/
theorem C10_no_amount_validation (s : Store) :
    ∀ pid cid (valor : Int) dataHora m d, ContaExists s cid →
      ¬ HasPagamento s cid → (¬ ∃ pg ∈ s.pagamentos, pg.id = pid) →
      Consistente m d →
      ∃ s2, applyOp (.pagar pid cid valor dataHora m d) s = .ok s2 ∧
        (∃ pg ∈ s2.pagamentos, pg.id = pid ∧ pg.contaId = cid ∧
          pg.valor = valor) ∧ HasPagamento s2 cid := by
  intro pid cid valor dataHora m d hc hnp hfresh hcons
  have hc2 : ∃ c ∈ s.contas, c.id = cid := hc
  have hnp2 : ¬ ∃ pg ∈ s.pagamentos, pg.contaId = cid := hnp
  simp only [applyOp]
  unfold pagar
  simp only [dif_pos hc2, dif_neg hnp2]
  rcases d with ⟨t, c⟩
  cases m <;> cases t <;> cases c <;>
    first
      | (simp only [dif_neg hfresh]
         exact ⟨_, rfl,
           ⟨⟨pid, cid, valor, dataHora⟩, List.mem_cons_self _ _,
             rfl, rfl, rfl⟩,
           ⟨⟨pid, cid, valor, dataHora⟩, List.mem_cons_self _ _, rfl⟩⟩)
      | simp [Consistente] at hcons

/-- Witness for C10: paying the unpaid conta 71 with the negative amount -7
succeeds. -/
theorem C10_witness :
    ∃ s2, applyOp (.pagar 102 71 (-7) 13 Metodo.dinheiro ⟨none, none⟩)
        sampleStore = .ok s2 ∧
      (∃ pg ∈ s2.pagamentos, pg.id = 102 ∧ pg.contaId = 71 ∧
        pg.valor = -7) ∧ HasPagamento s2 71 :=
  C10_no_amount_validation sampleStore 102 71 (-7) 13 Metodo.dinheiro
    ⟨none, none⟩ (by unfold ContaExists; decide)
    (by unfold HasPagamento; decide) (by decide) ⟨rfl, rfl⟩
